import Mathlib

/-!
Verification development for the robotics-lib simulation kernel
(`src/interface/mod.rs`, `src/utils/mod.rs`, `src/energy/mod.rs`,
`src/runner/backpack.rs`, `src/world/tile.rs`, `src/tools/dijkstra.rs`).

Shallow embedding conventions:
* `usize` is modelled as `Nat`; the only places where fixed-width machine
  arithmetic matters (the `i32` distance store of `tools/dijkstra.rs`) use
  explicit `% 2 ^ 32` / `% 2 ^ 64` conversions.
* Rust functions that mutate through `&mut` references are modelled in
  state-passing style: they return the updated state next to the
  `Result` payload, so mutations that survive an early `?` return stay
  visible (this matters for `destroy`, `craft`, `put`).
* Side effects with no bearing on the claims are dropped: event emission
  (`handle_event`), the process-global `PLOT` visited list, the
  floating-point score counter, and `println!` debugging.
* The two uses of `rand::thread_rng` (`destroy` ambient-water harvest and
  the mountain-digging arm of `put`) are modelled by an explicit function
  argument carrying the drawn value.
* `f64` weather arithmetic in `calculate_cost_go_with_environment` is
  modelled over `ℚ`; every theorem below is independent of the numeric
  value of that adjustment except at concrete inputs where the float
  computation is exact (all increments are `0.0`).
* `HashMap` backpacks are pre-seeded with every default content key by
  `BackPack::new`, so the contents map is modelled as a total function
  `Content → Nat` read and written only at `to_default` keys, exactly as
  the source does.
-/

namespace RoboticsLib

/-- `LibError` from `src/utils/mod.rs`. -/
inductive LibError where
  | NotEnoughEnergy
  | OutOfBounds
  | NoContent
  | NotEnoughSpace (remaining : Nat)
  | CannotDestroy
  | CannotWalk
  | WrongContentUsed
  | NotEnoughContentProvided
  | OperationNotAllowed
  | NotCraftable
  | NoMoreDiscovery
  | EmptyForecast
  | WrongHour
  | NotEnoughContentInBackPack
  | WorldIsNotASquare
  | TeleportIsTrueOnGeneration
  | ContentValueIsHigherThanMax
  | ContentNotAllowedOnTile
  | MustDestroyContentFirst
  deriving DecidableEq, Repr

/-- `Direction` from `src/interface/mod.rs`. -/
inductive Direction where
  | Up
  | Down
  | Left
  | Right
  deriving DecidableEq, Repr

/-- `WeatherType` from `src/world/environmental_conditions.rs`. -/
inductive WeatherType where
  | Sunny
  | Rainy
  | Foggy
  | TropicalMonsoon
  | TrentinoSnow
  deriving DecidableEq, Repr

/-- `DayTime` from `src/world/environmental_conditions.rs`. -/
inductive DayTime where
  | Morning
  | Afternoon
  | Night
  deriving DecidableEq, Repr

/-- `TileType` from `src/world/tile.rs`. -/
inductive TileType where
  | DeepWater
  | ShallowWater
  | Sand
  | Grass
  | Street
  | Hill
  | Mountain
  | Snow
  | Lava
  | Teleport (activated : Bool)
  | Wall
  deriving DecidableEq, Repr

/-- `Content` from `src/world/tile.rs`.  The Rust range payloads
`Range<usize>` of `Bin`/`Crate`/`Bank` are carried as the two fields
`(start, stop)` of the half-open range `start..stop`. -/
inductive Content where
  | Rock (v : Nat)
  | Tree (v : Nat)
  | Garbage (v : Nat)
  | Fire
  | Coin (v : Nat)
  | Bin (start stop : Nat)
  | Crate (start stop : Nat)
  | Bank (start stop : Nat)
  | Water (v : Nat)
  | Market (v : Nat)
  | Fish (v : Nat)
  | Building
  | Bush (v : Nat)
  | JollyBlock (v : Nat)
  | Scarecrow
  | None
  deriving DecidableEq, Repr

namespace Content

/-- `Content::index` from `src/world/tile.rs`. -/
def index : Content → Nat
  | .Rock _ => 0
  | .Tree _ => 1
  | .Garbage _ => 2
  | .Fire => 3
  | .Coin _ => 4
  | .Bin _ _ => 5
  | .Crate _ _ => 6
  | .Bank _ _ => 7
  | .Water _ => 8
  | .None => 9
  | .Fish _ => 10
  | .Market _ => 11
  | .Building => 12
  | .Bush _ => 13
  | .JollyBlock _ => 14
  | .Scarecrow => 15

/-- `Content::to_default` from `src/world/tile.rs`. -/
def to_default : Content → Content
  | .Coin _ => .Coin 0
  | .Garbage _ => .Garbage 0
  | .Water _ => .Water 0
  | .Rock _ => .Rock 0
  | .Tree _ => .Tree 0
  | .Market _ => .Market 0
  | .Fish _ => .Fish 0
  | .Bin _ _ => .Bin 0 0
  | .Bank _ _ => .Bank 0 0
  | .Crate _ _ => .Crate 0 0
  | .Fire => .Fire
  | .Scarecrow => .Scarecrow
  | .Building => .Building
  | .None => .None
  | .Bush _ => .Bush 0
  | .JollyBlock _ => .JollyBlock 0

/-- `Content::get_value` from `src/world/tile.rs`: either the scalar value
or the carried range. -/
def get_value : Content → Option Nat × Option (Nat × Nat)
  | .Rock v => (some v, Option.none)
  | .Tree v => (some v, Option.none)
  | .Garbage v => (some v, Option.none)
  | .Fire => (some 1, Option.none)
  | .Coin v => (some v, Option.none)
  | .Bin a b => (Option.none, some (a, b))
  | .Crate a b => (Option.none, some (a, b))
  | .Bank a b => (Option.none, some (a, b))
  | .Water v => (some v, Option.none)
  | .Market v => (some v, Option.none)
  | .Fish v => (some v, Option.none)
  | .None => (Option.none, Option.none)
  | .Building => (Option.none, Option.none)
  | .Bush v => (some v, Option.none)
  | .JollyBlock v => (some v, Option.none)
  | .Scarecrow => (Option.none, Option.none)

/-- `Content::to_value` from `src/world/tile.rs`. -/
def to_value : Content → Nat → Content
  | .Coin _, v => .Coin v
  | .Garbage _, v => .Garbage v
  | .Water _, v => .Water v
  | .Rock _, v => .Rock v
  | .Tree _, v => .Tree v
  | .Market _, v => .Market v
  | .Fish _, v => .Fish v
  | .Bin _ _, v => .Bin 0 v
  | .Bank _ _, v => .Bank 0 v
  | .Crate _ _, v => .Crate 0 v
  | .None, _ => .None
  | .Fire, _ => .Fire
  | .Building, _ => .Building
  | .Bush _, v => .Bush v
  | .JollyBlock _, v => .JollyBlock v
  | .Scarecrow, _ => .Scarecrow

end Content

/-- `TileTypeProps` from `src/world/tile.rs`. -/
structure TileTypeProps where
  walk : Bool
  hold : List (Content × Bool)
  cost : Nat
  deriving DecidableEq, Repr

/-- `TileTypeProps::can_hold`: looks up the `hold` table at the content's
index (the Rust array access `self.hold[content.index()].1`). -/
def TileTypeProps.can_hold (props : TileTypeProps) (content : Content) : Bool :=
  (props.hold.getD content.index (Content.None, false)).2

/-- `ContentProps` from `src/world/tile.rs`. -/
structure ContentProps where
  destroy : Bool
  max : Nat
  store : Bool
  cost : Nat
  score_weight : Int
  disposable : Option Content
  craft : List (Content × Nat)
  deriving DecidableEq, Repr

/-- The `not_craftable` default recipe array of `Content::properties`. -/
def not_craftable : List (Content × Nat) :=
  [(.Rock 0, 0), (.Tree 0, 0), (.Garbage 0, 0), (.Fire, 0), (.Coin 0, 0),
   (.Bin 0 0, 0), (.Crate 0 0, 0), (.Bank 0 0, 0), (.Water 0, 0), (.None, 0),
   (.Fish 0, 0), (.Market 0, 0), (.Building, 0), (.Bush 0, 0),
   (.JollyBlock 0, 0), (.Scarecrow, 0)]

/-- `TileType::properties` from `src/world/tile.rs` (the `gen_props`
tables, verbatim). -/
def TileType.properties : TileType → TileTypeProps
  | .DeepWater =>
    { cost := 0, walk := false,
      hold := [(.Rock 0, false), (.Tree 0, false), (.Garbage 0, false), (.Fire, false),
               (.Coin 0, false), (.Bin 0 0, false), (.Crate 0 0, false), (.Bank 0 0, false),
               (.Water 0, true), (.None, true), (.Fish 0, true), (.Market 0, false),
               (.Building, false), (.Bush 0, false), (.JollyBlock 0, false), (.Scarecrow, false)] }
  | .ShallowWater =>
    { cost := 5, walk := true,
      hold := [(.Rock 0, false), (.Tree 0, false), (.Garbage 0, false), (.Fire, false),
               (.Coin 0, false), (.Bin 0 0, false), (.Crate 0 0, false), (.Bank 0 0, false),
               (.Water 0, true), (.None, true), (.Fish 0, true), (.Market 0, false),
               (.Building, false), (.Bush 0, false), (.JollyBlock 0, false), (.Scarecrow, true)] }
  | .Sand =>
    { cost := 3, walk := true,
      hold := [(.Rock 0, true), (.Tree 0, false), (.Garbage 0, true), (.Fire, false),
               (.Coin 0, true), (.Bin 0 0, true), (.Crate 0 0, true), (.Bank 0 0, false),
               (.Water 0, false), (.None, true), (.Fish 0, false), (.Market 0, false),
               (.Building, false), (.Bush 0, false), (.JollyBlock 0, true), (.Scarecrow, true)] }
  | .Grass =>
    { cost := 1, walk := true,
      hold := [(.Rock 0, true), (.Tree 0, true), (.Garbage 0, true), (.Fire, true),
               (.Coin 0, true), (.Bin 0 0, true), (.Crate 0 0, true), (.Bank 0 0, true),
               (.Water 0, false), (.None, true), (.Fish 0, false), (.Market 0, true),
               (.Building, true), (.Bush 0, true), (.JollyBlock 0, true), (.Scarecrow, true)] }
  | .Street =>
    { cost := 0, walk := true,
      hold := [(.Rock 0, true), (.Tree 0, false), (.Garbage 0, true), (.Fire, false),
               (.Coin 0, true), (.Bin 0 0, true), (.Crate 0 0, false), (.Bank 0 0, true),
               (.Water 0, false), (.None, true), (.Fish 0, false), (.Market 0, true),
               (.Building, true), (.Bush 0, false), (.JollyBlock 0, true), (.Scarecrow, true)] }
  | .Hill =>
    { cost := 5, walk := true,
      hold := [(.Rock 0, true), (.Tree 0, true), (.Garbage 0, true), (.Fire, true),
               (.Coin 0, true), (.Bin 0 0, true), (.Crate 0 0, true), (.Bank 0 0, false),
               (.Water 0, false), (.None, true), (.Fish 0, false), (.Market 0, false),
               (.Building, true), (.Bush 0, true), (.JollyBlock 0, true), (.Scarecrow, true)] }
  | .Mountain =>
    { cost := 10, walk := true,
      hold := [(.Rock 0, true), (.Tree 0, true), (.Garbage 0, true), (.Fire, false),
               (.Coin 0, true), (.Bin 0 0, true), (.Crate 0 0, true), (.Bank 0 0, false),
               (.Water 0, false), (.None, true), (.Fish 0, false), (.Market 0, false),
               (.Building, true), (.Bush 0, true), (.JollyBlock 0, true), (.Scarecrow, true)] }
  | .Snow =>
    { cost := 3, walk := true,
      hold := [(.Rock 0, true), (.Tree 0, false), (.Garbage 0, false), (.Fire, false),
               (.Coin 0, true), (.Bin 0 0, false), (.Crate 0 0, true), (.Bank 0 0, false),
               (.Water 0, false), (.None, true), (.Fish 0, false), (.Market 0, false),
               (.Building, true), (.Bush 0, true), (.JollyBlock 0, true), (.Scarecrow, true)] }
  | .Lava =>
    { cost := 0, walk := false,
      hold := [(.Rock 0, false), (.Tree 0, false), (.Garbage 0, false), (.Fire, false),
               (.Coin 0, false), (.Bin 0 0, false), (.Crate 0 0, false), (.Bank 0 0, false),
               (.Water 0, false), (.None, true), (.Fish 0, false), (.Market 0, false),
               (.Building, false), (.Bush 0, false), (.JollyBlock 0, false), (.Scarecrow, false)] }
  | .Teleport _ =>
    { cost := 0, walk := true,
      hold := [(.Rock 0, true), (.Tree 0, false), (.Garbage 0, true), (.Fire, false),
               (.Coin 0, true), (.Bin 0 0, true), (.Crate 0 0, false), (.Bank 0 0, true),
               (.Water 0, false), (.None, true), (.Fish 0, false), (.Market 0, true),
               (.Building, false), (.Bush 0, false), (.JollyBlock 0, false), (.Scarecrow, false)] }
  | .Wall =>
    { cost := 0, walk := false,
      hold := [(.Rock 0, false), (.Tree 0, false), (.Garbage 0, false), (.Fire, true),
               (.Coin 0, false), (.Bin 0 0, false), (.Crate 0 0, false), (.Bank 0 0, false),
               (.Water 0, false), (.None, true), (.Fish 0, false), (.Market 0, false),
               (.Building, false), (.Bush 0, false), (.JollyBlock 0, false), (.Scarecrow, false)] }

/-- `Content::properties` from `src/world/tile.rs` (the `gen_props`
tables, verbatim; `score_weight` is the `i8` weight). -/
def Content.properties : Content → ContentProps
  | .Rock _ =>
    { destroy := true, max := 4, store := false, cost := 1,
      craft := not_craftable, score_weight := 1, disposable := Option.none }
  | .Tree _ =>
    { destroy := true, max := 5, store := false, cost := 3,
      craft := not_craftable, score_weight := 3, disposable := Option.none }
  | .Garbage _ =>
    { destroy := true, max := 3, store := false, cost := 4,
      craft := [(.Rock 0, 3), (.Tree 0, 1), (.Garbage 0, 0), (.Fire, 0), (.Coin 0, 0),
                (.Bin 0 0, 0), (.Crate 0 0, 0), (.Bank 0 0, 0), (.Water 0, 0), (.None, 0),
                (.Fish 0, 1), (.Market 0, 0), (.Building, 0), (.Bush 0, 0),
                (.JollyBlock 0, 0), (.Scarecrow, 0)],
      score_weight := 2, disposable := Option.none }
  | .Fire =>
    { destroy := true, max := 1, store := false, cost := 5,
      craft := not_craftable, score_weight := 10, disposable := some (.Water 0) }
  | .Coin _ =>
    { destroy := true, max := 10, store := true, cost := 0,
      craft := [(.Rock 0, 0), (.Tree 0, 0), (.Garbage 0, 5), (.Fire, 0), (.Coin 0, 0),
                (.Bin 0 0, 0), (.Crate 0 0, 0), (.Bank 0 0, 0), (.Water 0, 0), (.None, 0),
                (.Fish 0, 0), (.Market 0, 0), (.Building, 0), (.Bush 0, 0),
                (.JollyBlock 0, 0), (.Scarecrow, 0)],
      score_weight := 2, disposable := Option.none }
  | .Bin _ _ =>
    { destroy := false, max := 10, store := true, cost := 0,
      craft := not_craftable, score_weight := 10, disposable := some (.Garbage 0) }
  | .Crate _ _ =>
    { destroy := false, max := 20, store := true, cost := 0,
      craft := not_craftable, score_weight := 7, disposable := some (.Tree 0) }
  | .Bank _ _ =>
    { destroy := false, max := 50, store := true, cost := 0,
      craft := not_craftable, score_weight := 10, disposable := some (.Coin 0) }
  | .Water _ =>
    { destroy := true, max := 20, store := true, cost := 3,
      craft := not_craftable, score_weight := 2, disposable := Option.none }
  | .None =>
    { destroy := false, max := 0, store := false, cost := 0,
      craft := not_craftable, score_weight := 0, disposable := Option.none }
  | .Fish _ =>
    { destroy := true, max := 3, store := true, cost := 1,
      craft := not_craftable, score_weight := 1, disposable := Option.none }
  | .Market _ =>
    { destroy := false, max := 20, store := false, cost := 0,
      craft := not_craftable, score_weight := 5, disposable := some (.Fish 0) }
  | .Building =>
    { destroy := false, max := 0, store := false, cost := 0,
      craft := not_craftable, score_weight := 0, disposable := Option.none }
  | .Bush _ =>
    { destroy := true, max := 10, store := true, cost := 0,
      craft := not_craftable, score_weight := 1, disposable := Option.none }
  | .JollyBlock _ =>
    { destroy := true, max := 2, store := true, cost := 2,
      craft := [(.Rock 0, 2), (.Tree 0, 2), (.Garbage 0, 2), (.Fire, 0), (.Coin 0, 2),
                (.Bin 0 0, 0), (.Crate 0 0, 0), (.Bank 0 0, 0), (.Water 0, 0), (.None, 0),
                (.Fish 0, 2), (.Market 0, 0), (.Building, 0), (.Scarecrow, 2),
                (.JollyBlock 0, 0), (.Bush 0, 2)],
      score_weight := 2, disposable := Option.none }
  | .Scarecrow =>
    { destroy := false, max := 0, store := false, cost := 0,
      craft := not_craftable, score_weight := 2, disposable := Option.none }

/-- `Tile` from `src/world/tile.rs`. -/
structure Tile where
  tile_type : TileType
  content : Content
  elevation : Nat
  deriving DecidableEq, Repr

/-- `MAX_ENERGY_LEVEL` from `src/energy/mod.rs`. -/
def MAX_ENERGY_LEVEL : Nat := 1000

/-- `Energy` from `src/energy/mod.rs`. -/
structure Energy where
  energy_level : Nat
  deriving DecidableEq, Repr

namespace Energy

/-- `Energy::new`. -/
def new (energy_level : Nat) : Energy :=
  ⟨min energy_level MAX_ENERGY_LEVEL⟩

/-- `Energy::has_enough_energy`. -/
def has_enough_energy (e : Energy) (energy_needed : Nat) : Bool :=
  energy_needed ≤ e.energy_level

/-- `Energy::consume_energy`: fails (leaving the level unchanged) when the
level is below the requested amount. -/
def consume_energy (e : Energy) (energy_needed : Nat) : Except LibError Energy :=
  if e.has_enough_energy energy_needed then
    .ok ⟨e.energy_level - energy_needed⟩
  else
    .error .NotEnoughEnergy

/-- `Energy::recharge_energy`: saturates at `MAX_ENERGY_LEVEL`. -/
def recharge_energy (e : Energy) (energy_to_add : Nat) : Energy :=
  ⟨min MAX_ENERGY_LEVEL (e.energy_level + energy_to_add)⟩

end Energy

/-- The sixteen default-form contents, in the `Content::iter` declaration
order used by `BackPack::new` to pre-seed the contents map. -/
def defaultContents : List Content :=
  [.Rock 0, .Tree 0, .Garbage 0, .Fire, .Coin 0, .Bin 0 0, .Crate 0 0, .Bank 0 0,
   .Water 0, .Market 0, .Fish 0, .Building, .Bush 0, .JollyBlock 0, .Scarecrow, .None]

/-- `BackPack` from `src/runner/backpack.rs`: the `HashMap<Content, usize>`
is pre-seeded at every default key, so it is modelled as a total function
accessed only at `to_default` keys. -/
structure BackPack where
  size : Nat
  contents : Content → Nat

/-- `contents.values().sum()`: the backpack map only ever holds the sixteen
default keys, so the sum ranges over them. -/
def BackPack.total (b : BackPack) : Nat :=
  (defaultContents.map b.contents).sum

/-- `Coordinate` from `src/world/coordinates.rs`. -/
structure Coordinate where
  row : Nat
  col : Nat
  deriving DecidableEq, Repr

/-- The robot state manipulated through the `Runnable` accessor contract:
energy, coordinate and backpack. -/
structure Robot where
  energy : Energy
  coordinate : Coordinate
  backpack : BackPack

/-- `EnvironmentalConditions` from `src/world/environmental_conditions.rs`
(the `TimeOfDay` struct is inlined as `hour`/`minute`). -/
structure EnvironmentalConditions where
  time_progression_minutes : Nat
  hour : Nat
  minute : Nat
  weather_forecast : List WeatherType
  deriving DecidableEq, Repr

/-- `get_weather_condition`: the front of the forecast queue (nonempty by
construction; `headD` stands in for the source's `unwrap`). -/
def EnvironmentalConditions.get_weather_condition (ec : EnvironmentalConditions) : WeatherType :=
  ec.weather_forecast.headD .Sunny

/-- `get_time_of_day` from `src/world/environmental_conditions.rs`:
hours `0..=6 | 21..=24` are night, `7..=11` morning, `12..=20` afternoon. -/
def EnvironmentalConditions.get_time_of_day (ec : EnvironmentalConditions) : DayTime :=
  if ec.hour ≤ 6 then .Night
  else if ec.hour ≤ 11 then .Morning
  else if ec.hour ≤ 20 then .Afternoon
  else .Night

/-- `World` from `src/world/mod.rs` (the floating-point `ScoreCounter` is
outside the modelled state; no claim concerns the score value). -/
structure World where
  map : List (List Tile)
  dimension : Nat
  discoverable : Nat
  environmental_conditions : EnvironmentalConditions

/-- The tile placed at out-of-range reads; every map access in the source
is guarded by an in-bounds check, so this default is never observable. -/
def defaultTile : Tile := ⟨.Grass, .None, 0⟩

/-- `world.map[row][col]` (guarded reads). -/
def tileAt (world : World) (row col : Nat) : Tile :=
  (world.map.getD row []).getD col defaultTile

/-- In-place update of `world.map[row][col]`. -/
def setTile (world : World) (row col : Nat) (tile : Tile) : World :=
  { world with map := world.map.set row ((world.map.getD row []).set col tile) }

/-- `world.map[row][col].content = c`. -/
def setTileContent (world : World) (row col : Nat) (c : Content) : World :=
  setTile world row col { tileAt world row col with content := c }

/-- `world.map[row][col].tile_type = t`. -/
def setTileType (world : World) (row col : Nat) (t : TileType) : World :=
  setTile world row col { tileAt world row col with tile_type := t }

/-- `in_bounds` from `src/utils/mod.rs`. -/
def in_bounds (robot : Robot) (world : World) (direction : Direction) : Except LibError Unit :=
  let near_borders : Bool :=
    match direction with
    | .Up => robot.coordinate.row == 0
    | .Down => robot.coordinate.row == world.dimension - 1
    | .Left => robot.coordinate.col == 0
    | .Right => robot.coordinate.col == world.dimension - 1
  if near_borders then .error .OutOfBounds else .ok ()

/-- `get_coords_row_col` from `src/utils/mod.rs`. -/
def get_coords_row_col (robot : Robot) (direction : Direction) : Nat × Nat :=
  let robot_row := robot.coordinate.row
  let robot_col := robot.coordinate.col
  match direction with
  | .Up => (robot_row - 1, robot_col)
  | .Down => (robot_row + 1, robot_col)
  | .Left => (robot_row, robot_col - 1)
  | .Right => (robot_row, robot_col + 1)

/-- `go_allowed` from `src/utils/mod.rs`. -/
def go_allowed (robot : Robot) (world : World) (direction : Direction) : Except LibError Unit :=
  match in_bounds robot world direction with
  | .error e => .error e
  | .ok _ =>
    let (row, col) := get_coords_row_col robot direction
    if (tileAt world row col).tile_type.properties.walk then .ok ()
    else .error .CannotWalk

/-- `go_allowed_row_col` from `src/utils/mod.rs`. -/
def go_allowed_row_col (world : World) (row_col : Nat × Nat) : Bool :=
  row_col.1 < world.dimension && row_col.2 < world.dimension

/-- `can_destroy` from `src/utils/mod.rs`. -/
def can_destroy (world : World) (row_col : Nat × Nat) : Except LibError Bool :=
  if ¬ go_allowed_row_col world row_col then .error .OutOfBounds
  else if (tileAt world row_col.1 row_col.2).content = .None then .error .NoContent
  else .ok (tileAt world row_col.1 row_col.2).content.properties.destroy

/-- Pointwise update of the contents map (the `HashMap` entry write). -/
def BackPack.setContent (b : BackPack) (key : Content) (v : Nat) : BackPack :=
  { b with contents := fun c => if c = key then v else b.contents c }

/-- `add_to_backpack` from `src/utils/mod.rs`: always performs the
(possibly partial) add, then reports `NotEnoughSpace(actually_added)`
when the free space was below the request. -/
def add_to_backpack (robot : Robot) (content : Content) (quantity : Nat) :
    Robot × Except LibError Nat :=
  let remainder := robot.backpack.size - robot.backpack.total
  let quantity_to_add := min quantity remainder
  let key := content.to_default
  let robot' := { robot with
    backpack := robot.backpack.setContent key (robot.backpack.contents key + quantity_to_add) }
  if remainder ≥ quantity then (robot', .ok quantity_to_add)
  else (robot', .error (.NotEnoughSpace quantity_to_add))

/-- `remove_from_backpack` from `src/utils/mod.rs`: with nothing held it
fails `NoContent`; otherwise it removes `min(held, quantity)`. -/
def remove_from_backpack (robot : Robot) (content : Content) (quantity : Nat) :
    Robot × Except LibError Nat :=
  let key := content.to_default
  let value := robot.backpack.contents key
  if value = 0 then (robot, .error .NoContent)
  else if value ≤ quantity then
    ({ robot with backpack := robot.backpack.setContent key 0 }, .ok value)
  else
    ({ robot with backpack := robot.backpack.setContent key (value - quantity) }, .ok quantity)

/-- `can_store` from `src/utils/mod.rs`. -/
def can_store (robot : Robot) (available_space : Nat) (content_in content : Content)
    (quantity : Nat) : Except LibError (Nat × Nat) :=
  let cost := content.properties.cost
  let quantity_to_remove :=
    min (min available_space (robot.backpack.contents content_in.to_default)) quantity
  if ¬ robot.energy.has_enough_energy (cost * quantity_to_remove) then .error .NotEnoughEnergy
  else .ok (quantity_to_remove, cost * quantity_to_remove)

/-- `check_price_view` from `src/utils/mod.rs`: viewing `n ≤ 1` tiles is
free, otherwise the price is `n * 3` (checked, not yet consumed). -/
def check_price_view (robot : Robot) (tile_to_see : Nat) : Except LibError Nat :=
  let energy_needed := if tile_to_see ≤ 1 then 0 else tile_to_see * 3
  if ¬ robot.energy.has_enough_energy energy_needed then .error .NotEnoughEnergy
  else .ok energy_needed

/-- `calculate_cost_go_with_environment` from `src/utils/mod.rs`.  The
source accumulates the increment in `f64`; it is modelled over `ℚ`
(`1.1 = 11/10` and so on), with `ceil` and the nonnegative `as usize`
cast via `Int.toNat`. -/
def calculate_cost_go_with_environment (cost : Nat) (ec : EnvironmentalConditions)
    (tile_type : TileType) : Nat :=
  let weatherInc : ℚ :=
    match tile_type, ec.get_weather_condition with
    | _, .Sunny => 0
    | _, .Rainy => (cost : ℚ) * (11 / 10)
    | _, .TropicalMonsoon => (cost : ℚ) * 2
    | .Street, .TrentinoSnow => 1
    | .Street, .Foggy => 1
    | .Hill, .TrentinoSnow => (cost : ℚ) * (16 / 10)
    | .Mountain, .TrentinoSnow => (cost : ℚ) * (17 / 10)
    | .Snow, .TrentinoSnow => (cost : ℚ) * 2
    | _, _ => 0
  let timeInc : ℚ :=
    match tile_type, ec.get_time_of_day with
    | .Sand, .Afternoon => (cost : ℚ) * (17 / 10)
    | _, .Morning => (cost : ℚ) * (11 / 10)
    | _, .Afternoon => 0
    | _, .Night => (cost : ℚ) * (14 / 10)
  cost + (weatherInc + timeInc).ceil.toNat

/-- `go` from `src/interface/mod.rs`.  The returned `where_am_i` view is
read-only derived data and is replaced by the new coordinate pair.  Note
the source flips an undiscovered `Teleport` destination *before* the
energy is consumed, so the flip survives a `NotEnoughEnergy` failure. -/
def go (robot : Robot) (world : World) (direction : Direction) :
    Robot × World × Except LibError (Nat × Nat) :=
  match go_allowed robot world direction with
  | .error e => (robot, world, .error e)
  | .ok _ =>
    let (row, col) := get_coords_row_col robot direction
    let target_tile := tileAt world row col
    let current_tile := tileAt world robot.coordinate.row robot.coordinate.col
    let base_cost := target_tile.tile_type.properties.cost
    let new_elevation := target_tile.elevation
    let current_elevation := current_tile.elevation
    let base_cost :=
      calculate_cost_go_with_environment base_cost world.environmental_conditions
        target_tile.tile_type
    let elevation_cost :=
      if current_elevation < new_elevation then (new_elevation - current_elevation) ^ 2 else 0
    let world :=
      if (tileAt world row col).tile_type = .Teleport false then
        setTileType world row col (.Teleport true)
      else world
    match robot.energy.consume_energy (base_cost + elevation_cost) with
    | .error e => (robot, world, .error e)
    | .ok energy' =>
      ({ robot with energy := energy', coordinate := ⟨row, col⟩ }, world, .ok (row, col))

/-- `destroy` from `src/interface/mod.rs`.  `rngWater` carries the value
drawn by `rng.gen_range(0..water.max)` in the ambient-water branch. -/
def destroy (robot : Robot) (world : World) (direction : Direction) (rngWater : Nat) :
    Robot × World × Except LibError Nat :=
  match in_bounds robot world direction with
  | .error e => (robot, world, .error e)
  | .ok _ =>
    let (target_row, target_col) := get_coords_row_col robot direction
    let tiletype := (tileAt world target_row target_col).tile_type
    let content := (tileAt world target_row target_col).content
    let value := 0
    let cost := content.properties.cost
    let water := Content.Water 0
    let isWaterTile := tiletype = .ShallowWater ∨ tiletype = .DeepWater
    let (value, cost, content) :=
      if isWaterTile ∧ content = .None then (rngWater, water.properties.cost, water)
      else (value, cost, content)
    let value := if content = .Fire then content.properties.max else value
    match (if ¬ isWaterTile then can_destroy world (target_row, target_col) else .ok true : Except LibError Bool) with
    | .error e => (robot, world, .error e)
    | .ok canDo =>
      if ¬ isWaterTile ∧ ¬ canDo then (robot, world, .error .CannotDestroy)
      else
        let value := if value = 0 then (content.get_value.1.getD 0) else value
        if robot.energy.has_enough_energy cost then
          match add_to_backpack robot content.to_default value with
          | (robot1, .error e) => (robot1, world, .error e)
          | (robot1, .ok amt) =>
            match robot1.energy.consume_energy cost with
            | .error e => (robot1, world, .error e)
            | .ok energy' =>
              ({ robot1 with energy := energy' },
               setTileContent world target_row target_col .None, .ok amt)
        else (robot, world, .error .NotEnoughEnergy)

/-- The per-unit coin exchange rate of the market arm of `put`
(`rock → 1`, `tree → 2`, `fish → 5`, anything else `0`). -/
def marketCoins : Content → Nat
  | .Rock _ => 1
  | .Tree _ => 2
  | .Fish _ => 5
  | _ => 0

/-- `put` from `src/interface/mod.rs`: the big match over
`(target tile type, target content, content to place)`, with the arms in
source order.  `rngRock` carries the value drawn by
`rng.gen_range(1..rock.max)` in the mountain-digging arm. -/
def put (robot : Robot) (world : World) (content_in : Content) (quantity : Nat)
    (direction : Direction) (rngRock : Nat) : Robot × World × Except LibError Nat :=
  match in_bounds robot world direction with
  | .error e => (robot, world, .error e)
  | .ok _ =>
  let (target_row, target_col) := get_coords_row_col robot direction
  if content_in = .None ∧ (tileAt world target_row target_col).tile_type ≠ .Mountain then
    (robot, world, .error .WrongContentUsed)
  else
  let amount :=
    min (min quantity (robot.backpack.contents content_in.to_default))
      content_in.properties.max
  let ttype := (tileAt world target_row target_col).tile_type
  let tcontent := (tileAt world target_row target_col).content
  match ttype, tcontent, content_in with
  | _, .Bank s e, .Coin _ =>
    (match can_store robot (e - s) content_in.to_default (Content.Bank s e).to_default quantity with
     | .error er => (robot, world, .error er)
     | .ok (quantity_to_remove, cost) =>
       match remove_from_backpack robot content_in.to_default quantity_to_remove with
       | (robot1, .error er) => (robot1, world, .error er)
       | (robot1, .ok removed_quantity) =>
         let world := setTileContent world target_row target_col (.Bank (s + removed_quantity) e)
         match robot1.energy.consume_energy cost with
         | .error er => (robot1, world, .error er)
         | .ok energy' => ({ robot1 with energy := energy' }, world, .ok removed_quantity))
  | _, .Bin s e, .Garbage _ =>
    (match can_store robot (e - s) content_in.to_default (Content.Bin s e).to_default quantity with
     | .error er => (robot, world, .error er)
     | .ok (quantity_to_remove, cost) =>
       match remove_from_backpack robot content_in.to_default quantity_to_remove with
       | (robot1, .error er) => (robot1, world, .error er)
       | (robot1, .ok removed_quantity) =>
         let world := setTileContent world target_row target_col (.Bin (s + removed_quantity) e)
         match robot1.energy.consume_energy cost with
         | .error er => (robot1, world, .error er)
         | .ok energy' => ({ robot1 with energy := energy' }, world, .ok removed_quantity))
  | _, .Crate s e, .Tree _ =>
    (match can_store robot (e - s) content_in.to_default (Content.Crate s e).to_default quantity with
     | .error er => (robot, world, .error er)
     | .ok (quantity_to_remove, cost) =>
       match remove_from_backpack robot content_in.to_default quantity_to_remove with
       | (robot1, .error er) => (robot1, world, .error er)
       | (robot1, .ok removed_quantity) =>
         let world := setTileContent world target_row target_col (.Crate (s + removed_quantity) e)
         match robot1.energy.consume_energy cost with
         | .error er => (robot1, world, .error er)
         | .ok energy' => ({ robot1 with energy := energy' }, world, .ok removed_quantity))
  | _, .Tree _, .Fire | _, .None, .Fire =>
    (if ¬ ttype.properties.can_hold content_in then (robot, world, .error .WrongContentUsed)
     else
       let cost := content_in.properties.cost
       if ¬ robot.energy.has_enough_energy cost then (robot, world, .error .NotEnoughEnergy)
       else
         match remove_from_backpack robot content_in.to_default 1 with
         | (robot1, .error er) => (robot1, world, .error er)
         | (robot1, .ok removed_quantity) =>
           match robot1.energy.consume_energy cost with
           | .error er => (robot1, world, .error er)
           | .ok energy' =>
             let world := setTileContent world target_row target_col content_in.to_default
             ({ robot1 with energy := energy' }, world, .ok removed_quantity))
  | _, .Market remaining_op, _ =>
    (if remaining_op < 1 then (robot, world, .error .OperationNotAllowed)
     else
       let world := setTileContent world target_row target_col (.Market (remaining_op - 1))
       match remove_from_backpack robot content_in quantity with
       | (robot1, .error er) => (robot1, world, .error er)
       | (robot1, .ok items_sold) =>
         let coins := marketCoins content_in
         if coins = 0 then (robot1, world, .error .WrongContentUsed)
         else
           match add_to_backpack robot1 (.Coin 0) (items_sold * coins) with
           | (robot2, .error er) => (robot2, world, .error er)
           | (robot2, .ok added) => (robot2, world, .ok added))
  | .Grass, _, .Rock _ | .Hill, _, .Rock _ | .Sand, _, .Rock _ | .Snow, _, .Rock _ =>
    (let cost := content_in.properties.cost
     if ¬ (TileType.Street.properties.can_hold tcontent) then
       (robot, world, .error .MustDestroyContentFirst)
     else if ¬ robot.energy.has_enough_energy cost then (robot, world, .error .NotEnoughEnergy)
     else
       match remove_from_backpack robot content_in.to_default 1 with
       | (robot1, .error er) => (robot1, world, .error er)
       | (robot1, .ok removed_quantity) =>
         match robot1.energy.consume_energy cost with
         | .error er => (robot1, world, .error er)
         | .ok energy' =>
           let world := setTileType world target_row target_col .Street
           ({ robot1 with energy := energy' }, world, .ok removed_quantity))
  | .ShallowWater, _, .Rock _ =>
    (let cost := content_in.properties.cost * 2
     if ¬ (TileType.Street.properties.can_hold tcontent) then
       (robot, world, .error .MustDestroyContentFirst)
     else if amount < 2 then (robot, world, .error .NotEnoughContentProvided)
     else if ¬ robot.energy.has_enough_energy cost then (robot, world, .error .NotEnoughEnergy)
     else
       match remove_from_backpack robot content_in.to_default 2 with
       | (robot1, .error er) => (robot1, world, .error er)
       | (robot1, .ok removed_quantity) =>
         match robot1.energy.consume_energy cost with
         | .error er => (robot1, world, .error er)
         | .ok energy' =>
           let world := setTileType world target_row target_col .Street
           ({ robot1 with energy := energy' }, world, .ok removed_quantity))
  | .DeepWater, _, .Rock _ =>
    (let cost := content_in.properties.cost * 3 * 2
     if ¬ (TileType.Street.properties.can_hold tcontent) then
       (robot, world, .error .MustDestroyContentFirst)
     else if amount < 3 then (robot, world, .error .NotEnoughContentProvided)
     else if ¬ robot.energy.has_enough_energy cost then (robot, world, .error .NotEnoughEnergy)
     else
       match remove_from_backpack robot content_in.to_default 3 with
       | (robot1, .error er) => (robot1, world, .error er)
       | (robot1, .ok removed_quantity) =>
         match robot1.energy.consume_energy cost with
         | .error er => (robot1, world, .error er)
         | .ok energy' =>
           let world := setTileType world target_row target_col .Street
           ({ robot1 with energy := energy' }, world, .ok removed_quantity))
  | .Lava, _, .Rock _ =>
    (let cost := content_in.properties.cost * 3 * 3
     if amount < 3 then (robot, world, .error .NotEnoughContentProvided)
     else if ¬ robot.energy.has_enough_energy cost then (robot, world, .error .NotEnoughEnergy)
     else
       match remove_from_backpack robot content_in.to_default 3 with
       | (robot1, .error er) => (robot1, world, .error er)
       | (robot1, .ok removed_quantity) =>
         match robot1.energy.consume_energy cost with
         | .error er => (robot1, world, .error er)
         | .ok energy' =>
           let world := setTileType world target_row target_col .Street
           ({ robot1 with energy := energy' }, world, .ok removed_quantity))
  | _, .None, .Rock _ =>
    (if ¬ ttype.properties.can_hold content_in then (robot, world, .error .WrongContentUsed)
     else
       let cost := content_in.properties.cost * amount
       if ¬ robot.energy.has_enough_energy cost then (robot, world, .error .NotEnoughEnergy)
       else
         match remove_from_backpack robot content_in.to_default amount with
         | (robot1, .error er) => (robot1, world, .error er)
         | (robot1, .ok removed_quantity) =>
           match robot1.energy.consume_energy cost with
           | .error er => (robot1, world, .error er)
           | .ok energy' =>
             let world := setTileContent world target_row target_col (.Rock amount)
             ({ robot1 with energy := energy' }, world, .ok removed_quantity))
  | .Mountain, _, .None =>
    (let amount_to_give := rngRock
     let cost := (Content.Rock 0).properties.cost * amount_to_give * 4
     if ¬ robot.energy.has_enough_energy cost then (robot, world, .error .NotEnoughEnergy)
     else
       match add_to_backpack robot (.Rock 0) amount_to_give with
       | (robot1, .error er) => (robot1, world, .error er)
       | (robot1, .ok added_quantity) =>
         match robot1.energy.consume_energy cost with
         | .error er => (robot1, world, .error er)
         | .ok energy' =>
           let world := setTileType world target_row target_col .Street
           ({ robot1 with energy := energy' }, world, .ok added_quantity))
  | _, .Fire, .Water _ =>
    (let cost := content_in.properties.cost
     if ¬ robot.energy.has_enough_energy cost then (robot, world, .error .NotEnoughEnergy)
     else
       match remove_from_backpack robot content_in.to_default 1 with
       | (robot1, .error er) => (robot1, world, .error er)
       | (robot1, .ok removed_quantity) =>
         match robot1.energy.consume_energy cost with
         | .error er => (robot1, world, .error er)
         | .ok energy' =>
           let world := setTileContent world target_row target_col .None
           ({ robot1 with energy := energy' }, world, .ok removed_quantity))
  | _, .Fire, _ =>
    (let cost := (Content.Water 0).properties.cost * amount
     if ¬ robot.energy.has_enough_energy cost then (robot, world, .error .NotEnoughEnergy)
     else
       match remove_from_backpack robot content_in.to_default amount with
       | (robot1, .error er) => (robot1, world, .error er)
       | (robot1, .ok removed_quantity) =>
         match robot1.energy.consume_energy cost with
         | .error er => (robot1, world, .error er)
         | .ok energy' => ({ robot1 with energy := energy' }, world, .ok removed_quantity))
  | _, .None, _ =>
    (if ¬ ttype.properties.can_hold content_in then (robot, world, .error .WrongContentUsed)
     else
       let cost := content_in.properties.cost * amount
       if ¬ robot.energy.has_enough_energy cost then (robot, world, .error .NotEnoughEnergy)
       else
         match remove_from_backpack robot content_in.to_default amount with
         | (robot1, .error er) => (robot1, world, .error er)
         | (robot1, .ok removed_quantity) =>
           match robot1.energy.consume_energy cost with
           | .error er => (robot1, world, .error er)
           | .ok energy' =>
             let world := setTileContent world target_row target_col (content_in.to_value amount)
             ({ robot1 with energy := energy' }, world, .ok removed_quantity))
  | _, _, _ =>
    (if tcontent.to_default ≠ content_in.to_default then (robot, world, .error .WrongContentUsed)
     else
       match tcontent.get_value.1 with
       | Option.none => (robot, world, .error .OperationNotAllowed)
       | some value =>
         let amount := min amount (tcontent.properties.max - value)
         if amount = 0 then (robot, world, .error .OperationNotAllowed)
         else
           let cost := content_in.properties.cost * amount
           if ¬ robot.energy.has_enough_energy cost then (robot, world, .error .NotEnoughEnergy)
           else
             match remove_from_backpack robot content_in.to_default amount with
             | (robot1, .error er) => (robot1, world, .error er)
             | (robot1, .ok removed_quantity) =>
               match robot1.energy.consume_energy cost with
               | .error er => (robot1, world, .error er)
               | .ok energy' =>
                 let world :=
                   setTileContent world target_row target_col
                     (content_in.to_value (amount + value))
                 ({ robot1 with energy := energy' }, world, .ok removed_quantity))

/-- The recipe-iteration loop of `craft`: tries the recipe entries in
table order; a `NoContent` removal failure moves on to the next entry,
while a successful (possibly partial) removal proceeds to craft. -/
def craftLoop (robot : Robot) (content : Content) :
    List (Content × Nat) → Robot × Except LibError Content
  | [] => (robot, .error .NotCraftable)
  | (content_n, quantity) :: rest =>
    if quantity ≠ 0 then
      match remove_from_backpack robot content_n quantity with
      | (robot1, .ok value) =>
        let step1 : Robot × Except LibError Nat :=
          if value ≠ quantity then add_to_backpack robot1 content_n.to_default value
          else (robot1, .ok value)
        match step1 with
        | (robot2, .error e) => (robot2, .error e)
        | (robot2, .ok _) =>
          let cost := content.properties.cost
          match robot2.energy.consume_energy cost with
          | .error e => (robot2, .error e)
          | .ok energy' =>
            let robot3 := { robot2 with energy := energy' }
            match add_to_backpack robot3 content.to_default 1 with
            | (robot4, .error e) => (robot4, .error e)
            | (robot4, .ok _) => (robot4, .ok content)
      | (robot1, .error _) => craftLoop robot1 content rest
  else craftLoop robot content rest

/-- `craft` from `src/interface/mod.rs`. -/
def craft (robot : Robot) (content : Content) : Robot × Except LibError Content :=
  match content with
  | .None => (robot, .error .NotCraftable)
  | _ => craftLoop robot content content.properties.craft

/-- `discover_tiles` from `src/interface/mod.rs`.  The returned `HashMap`
is modelled as the association list of its inserts in iteration order. -/
def discover_tiles (robot : Robot) (world : World) (to_discover : List (Nat × Nat)) :
    Robot × World × Except LibError (List ((Nat × Nat) × Option Tile)) :=
  if world.discoverable ≥ to_discover.length then
    let energy_needed := to_discover.length * 3
    if robot.energy.has_enough_energy energy_needed then
      let world' := { world with discoverable := world.discoverable - to_discover.length }
      match robot.energy.consume_energy energy_needed with
      | .error e => (robot, world', .error e)
      | .ok energy' =>
        let return_value := to_discover.map fun (x, y) =>
          if x < world.map.length ∧ y < (world.map.getD x []).length then
            ((x, y), some (tileAt world x y))
          else ((x, y), (Option.none : Option Tile))
        ({ robot with energy := energy' }, world', .ok return_value)
    else (robot, world, .error .NotEnoughEnergy)
  else (robot, world, .error .NoMoreDiscovery)

/-- The clipped column range `start_index_col..=ending_index_col` around
the robot used by the `Up`/`Down` arms of `one_direction_view`. -/
def colRange (robot : Robot) (world : World) : List Nat :=
  (if robot.coordinate.col = 0 then [] else [robot.coordinate.col - 1]) ++
    [robot.coordinate.col] ++
    (if robot.coordinate.col = world.dimension - 1 then [] else [robot.coordinate.col + 1])

/-- The clipped row range `start_index_row..=ending_index_row` around
the robot used by the `Left`/`Right` arms of `one_direction_view`. -/
def rowRange (robot : Robot) (world : World) : List Nat :=
  (if robot.coordinate.row = 0 then [] else [robot.coordinate.row - 1]) ++
    [robot.coordinate.row] ++
    (if robot.coordinate.row = world.dimension - 1 then [] else [robot.coordinate.row + 1])

/-- `one_direction_view` from `src/interface/mod.rs` (the world is read
through `&World` and never mutated; the `PLOT` bookkeeping is dropped). -/
def one_direction_view (robot : Robot) (world : World) (direction : Direction)
    (distance : Nat) : Robot × Except LibError (List (List Tile)) :=
  let robot_row := robot.coordinate.row
  let robot_col := robot.coordinate.col
  let map_dimension := world.dimension
  match direction with
  | .Up =>
    let tile_to_see := min distance robot_row
    if tile_to_see = 0 then (robot, .ok [])
    else
      match check_price_view robot tile_to_see with
      | .error e => (robot, .error e)
      | .ok energy_needed =>
        let out := (List.range tile_to_see).map fun i =>
          (colRange robot world).map fun col => tileAt world (robot_row - (i + 1)) col
        match robot.energy.consume_energy energy_needed with
        | .error e => (robot, .error e)
        | .ok energy' => ({ robot with energy := energy' }, .ok out)
  | .Down =>
    let tile_to_see := min distance (map_dimension - robot_row - 1)
    if tile_to_see = 0 then (robot, .ok [])
    else
      match check_price_view robot tile_to_see with
      | .error e => (robot, .error e)
      | .ok energy_needed =>
        let out := (List.range tile_to_see).map fun i =>
          (colRange robot world).map fun col => tileAt world (robot_row + (i + 1)) col
        match robot.energy.consume_energy energy_needed with
        | .error e => (robot, .error e)
        | .ok energy' => ({ robot with energy := energy' }, .ok out)
  | .Left =>
    let tile_to_see := min distance robot_col
    if tile_to_see = 0 then (robot, .ok [])
    else
      match check_price_view robot tile_to_see with
      | .error e => (robot, .error e)
      | .ok energy_needed =>
        let out := (rowRange robot world).map fun row =>
          (List.range tile_to_see).map fun j => tileAt world row (robot_col - (j + 1))
        match robot.energy.consume_energy energy_needed with
        | .error e => (robot, .error e)
        | .ok energy' => ({ robot with energy := energy' }, .ok out)
  | .Right =>
    let tile_to_see := min distance (map_dimension - robot_col - 1)
    if tile_to_see = 0 then (robot, .ok [])
    else
      match check_price_view robot tile_to_see with
      | .error e => (robot, .error e)
      | .ok energy_needed =>
        let out := (rowRange robot world).map fun row =>
          (List.range tile_to_see).map fun j => tileAt world row (robot_col + (j + 1))
        match robot.energy.consume_energy energy_needed with
        | .error e => (robot, .error e)
        | .ok energy' => ({ robot with energy := energy' }, .ok out)

/-! ## `src/tools/dijkstra.rs` -/

/-- `Node` from `src/tools/dijkstra.rs`: a graph label together with an
edge weight / tentative distance. -/
structure DNode where
  index : Nat
  distance : Nat
  deriving DecidableEq, Repr

/-- `get_cost`: non-walkable tiles get the large sentinel weight. -/
def get_cost (tile : Tile) : Nat :=
  match tile.tile_type with
  | .DeepWater | .Lava | .Wall => 100000
  | _ => tile.tile_type.properties.cost

/-- `is_wakable` (sic) from `src/tools/dijkstra.rs`. -/
def is_wakable (tile : Tile) : Bool :=
  match tile.tile_type with
  | .DeepWater | .Lava | .Wall => false
  | _ => true

/-- `get_cost_elevation`: `(Δelevation)²` when moving strictly uphill. -/
def get_cost_elevation (tile_arrive tile_start : Tile) : Nat :=
  if tile_arrive.elevation ≤ tile_start.elevation then 0
  else (tile_arrive.elevation - tile_start.elevation) ^ 2

/-- `get_neighbours` from `src/tools/dijkstra.rs`: the walkable
4-neighbours of cell `(x, y)` (whose row-major label is `value`), pushed
in source order.  A neighbour at elevation `0` skips the elevation term
(`get_cost_elevation` is `0` there anyway). -/
def get_neighbours (matrix_tile : List (List Tile)) (x y value : Nat) (tile : Tile) :
    List DNode :=
  let rows := matrix_tile.length
  let cols := (matrix_tile.getD 0 []).length
  let cellAt := fun (r c : Nat) => (matrix_tile.getD r []).getD c defaultTile
  let mk := fun (label : Nat) (t : Tile) =>
    if t.elevation = 0 then DNode.mk label (get_cost t)
    else DNode.mk label (get_cost t + get_cost_elevation t tile)
  (if 1 ≤ x ∧ x - 1 < rows ∧ y < cols ∧ is_wakable (cellAt (x - 1) y) then
    [mk (value - cols) (cellAt (x - 1) y)] else []) ++
  (if x < rows ∧ y + 1 < cols ∧ is_wakable (cellAt x (y + 1)) then
    [mk (value + 1) (cellAt x (y + 1))] else []) ++
  (if x + 1 < rows ∧ y < cols ∧ is_wakable (cellAt (x + 1) y) then
    [mk (value + cols) (cellAt (x + 1) y)] else []) ++
  (if x < rows ∧ 1 ≤ y ∧ y - 1 < cols ∧ is_wakable (cellAt x (y - 1)) then
    [mk (value - 1) (cellAt x (y - 1))] else [])

/-- `TileTypeOrContent` from `src/tools/dijkstra.rs`. -/
inductive TileTypeOrContent where
  | TileType (t : TileType)
  | Content (c : Content)

/-- `change_matrix` from `src/tools/dijkstra.rs`: grid → adjacency-list
graph plus the list of target labels, iterating the grid in row-major
order with a running label. -/
def change_matrix (matrix_tile : List (List Tile)) (tile_or_content : TileTypeOrContent) :
    List (List DNode) × List Nat :=
  let rows := matrix_tile.length
  let cols := (matrix_tile.getD 0 []).length
  let start := (List.replicate (rows * cols) ([] : List DNode), ([] : List Nat), 0)
  let step := fun (acc : List (List DNode) × List Nat × Nat) (x : Nat) (y : Nat) (tile : Tile) =>
    let (matrix_node, target_nodes, label_node) := acc
    let is_walkable := is_wakable tile
    let target_nodes :=
      match tile_or_content with
      | .TileType tt =>
        if tile.tile_type = tt ∧ is_walkable then target_nodes ++ [label_node] else target_nodes
      | .Content c =>
        if tile.content = c ∧ is_walkable then target_nodes ++ [label_node] else target_nodes
    let matrix_node :=
      if is_walkable then
        matrix_node.set label_node
          (matrix_node.getD label_node [] ++ get_neighbours matrix_tile x y label_node tile)
      else matrix_node
    (matrix_node, target_nodes, label_node + 1)
  let final := matrix_tile.enum.foldl
    (fun acc (xrow : Nat × List Tile) =>
      xrow.2.enum.foldl (fun acc2 (ytile : Nat × Tile) => step acc2 xrow.1 ytile.1 ytile.2) acc)
    start
  (final.1, final.2.1)

/-- `INF`: `std::i32::MAX`, the no-path sentinel of `dijkstra`. -/
def INFi : Int := 2147483647

/-- The same sentinel read back as a `usize` (`INF as usize`). -/
def INFn : Nat := 2147483647

/-- The `usize → i32` truncating cast (`new_distance as i32`). -/
def usizeToI32 (n : Nat) : Int :=
  (((n + 2 ^ 31) % 2 ^ 32 : Nat) : Int) - 2 ^ 31

/-- The `i32 → usize` sign-extending cast on a 64-bit target. -/
def i32ToUsize (z : Int) : Nat :=
  (z % 2 ^ 64).toNat

/-- The mutable state of `dijkstra`: the `distance`, `predecessor` and
`visited` vectors (modelled as total functions; the source only ever
indexes them below `graph.len()`). -/
structure DState where
  dist : Nat → Option Int
  pred : Nat → Option Nat
  visited : Nat → Bool

/-- Pointwise function update (a vector element write). -/
def upd {α : Type} (f : Nat → α) (k : Nat) (v : α) : Nat → α :=
  fun i => if i = k then v else f i

/-- The relaxation loop body of `dijkstra`: for each neighbour of the
popped node (popped tentative distance `dd`), compare
`dd + weight` (with `usize` wrap-around) against the stored distance
(`unwrap_or(INF) as usize`) and on strict improvement store the new
distance (`as i32`), the predecessor, and push the node.  Returns the
updated state and the list of pushed heap entries. -/
def relaxAll (dd u : Nat) : List DNode → DState → DState × List DNode
  | [], s => (s, [])
  | nb :: rest, s =>
    let new_distance := (dd + nb.distance) % 2 ^ 64
    let neighbor_distance := i32ToUsize ((s.dist nb.index).getD INFi)
    if new_distance < neighbor_distance then
      let s' := { s with
        dist := upd s.dist nb.index (some (usizeToI32 new_distance)),
        pred := upd s.pred nb.index (some u) }
      let out := relaxAll dd u rest s'
      (out.1, DNode.mk nb.index new_distance :: out.2)
    else relaxAll dd u rest s

/-- `BinaryHeap::pop` on the reverse-ordered `Node` heap: removes one
entry of minimal `distance` (the leftmost minimum — ties are broken
arbitrarily by the heap, and no theorem below depends on the choice). -/
def popMin : List DNode → Option (DNode × List DNode)
  | [] => Option.none
  | x :: xs =>
    match popMin xs with
    | Option.none => some (x, [])
    | some (m, rest) =>
      if x.distance ≤ m.distance then some (x, xs) else some (m, x :: rest)

/-- The `while let Some(..) = heap.pop()` loop of `dijkstra`, with an
explicit fuel.  Every iteration strictly decreases
`(#unvisited labels) * (edge count + 1) + heap size`, so the fuel chosen
by `dijkstra` below always outlasts the loop. -/
def dijkstraLoop (graph : List (List DNode)) : Nat → DState → List DNode → DState
  | 0, s, _ => s
  | fuel + 1, s, heap =>
    match popMin heap with
    | Option.none => s
    | some (nd, rest) =>
      if s.visited nd.index then dijkstraLoop graph fuel s rest
      else
        let s1 := { s with visited := upd s.visited nd.index true }
        let out := relaxAll nd.distance nd.index (graph.getD nd.index []) s1
        dijkstraLoop graph fuel out.1 (rest ++ out.2)

/-- The total number of adjacency entries of the graph. -/
def edgeCount (graph : List (List DNode)) : Nat :=
  (graph.map List.length).sum

/-- `dijkstra` from `src/tools/dijkstra.rs`: distance and predecessor
vectors from `start`, with `none` as the untouched sentinel. -/
def dijkstra (graph : List (List DNode)) (start : Nat) :
    (Nat → Option Int) × (Nat → Option Nat) :=
  let s0 : DState :=
    { dist := upd (fun _ => Option.none) start (some 0),
      pred := fun _ => Option.none,
      visited := fun _ => false }
  let s := dijkstraLoop graph (graph.length * (edgeCount graph + 1) + 1) s0 [⟨start, 0⟩]
  (s.dist, s.pred)

/-- The `while let Some(prev) = predecessor[current]` walk of
`reconstruct_shortest_path`, with an explicit fuel: exhausted fuel stops
the walk exactly like a `none` predecessor (the theorems below only use
fuels past the walk's actual termination point). -/
def walkPred (pred : Nat → Option Nat) : Nat → Nat → List Nat → List Nat
  | 0, current, path => path ++ [current]
  | fuel + 1, current, path =>
    match pred current with
    | some prev => walkPred pred fuel prev (path ++ [current])
    | Option.none => path ++ [current]

/-- `reconstruct_shortest_path` from `src/tools/dijkstra.rs`: walks the
predecessors backward from `target`, reverses, and returns `none` when
the walk produced only the trivial `[target]`. -/
def reconstruct_shortest_path (pred : Nat → Option Nat) (fuel target : Nat) :
    Option (List Nat) :=
  let path := (walkPred pred fuel target []).reverse
  if path = [target] then Option.none else some path

/-- An adjacency edge `u → v` of weight `w`. -/
def EdgeG (graph : List (List DNode)) (u v w : Nat) : Prop :=
  DNode.mk v w ∈ graph.getD u []

/-- Walks of the adjacency graph from `s`, with their total weight. -/
inductive PathW (graph : List (List DNode)) (s : Nat) : Nat → Nat → Prop where
  | refl : PathW graph s s 0
  | tail {u c v w} : PathW graph s u c → EdgeG graph u v w → PathW graph s v (c + w)

/-- `v` is reachable from `s` in the adjacency graph. -/
def ReachG (graph : List (List DNode)) (s v : Nat) : Prop :=
  ∃ c, PathW graph s v c

/-- `d` is the minimal total edge weight of a walk `s → v`. -/
def IsMinDist (graph : List (List DNode)) (s v d : Nat) : Prop :=
  PathW graph s v d ∧ ∀ c, PathW graph s v c → d ≤ c

/-! ## Shared definitions for the claim theorems -/

/-- A concrete robot with 7 of 10 backpack slots used (witness state). -/
def c5robot : Robot :=
  ⟨⟨100⟩, ⟨0, 0⟩, ⟨10, fun c => if c = Content.Rock 0 then 7 else 0⟩⟩

/-- A fixed sunny-noon environment (weather and daytime multipliers all
exact zeros, so the `f64`/`ℚ` modelling gap is empty). -/
def sunnyNoon : EnvironmentalConditions := ⟨30, 12, 0, [.Sunny]⟩

/-- Concrete counterexample state for C1: one free backpack slot. -/
def c1robot : Robot := ⟨⟨1000⟩, ⟨0, 0⟩, ⟨1, fun _ => 0⟩⟩

/-- Concrete counterexample world for C1: a `Rock(2)` tile below. -/
def c1world : World :=
  ⟨[[⟨.Grass, .None, 0⟩], [⟨.Grass, .Rock 2, 0⟩]], 2, 10, sunnyNoon⟩

/-- Witness state for the amended C1: 2 free slots, `Rock(4)` below. -/
def c1wrobot : Robot :=
  ⟨⟨50⟩, ⟨0, 0⟩, ⟨3, fun c => if c = Content.Rock 0 then 1 else 0⟩⟩

/-- Witness world for the amended C1. -/
def c1wworld : World :=
  ⟨[[⟨.Grass, .None, 0⟩], [⟨.Grass, .Rock 4, 0⟩]], 2, 10, sunnyNoon⟩

/-- Concrete counterexample state for C3: no energy at `(0,0)`. -/
def c3robot : Robot := ⟨⟨0⟩, ⟨0, 0⟩, ⟨10, fun _ => 0⟩⟩

/-- Concrete counterexample world for C3: an unactivated teleport at
`(0,1)`, one level up (move cost `0 + 1² = 1 > 0` energy). -/
def c3world : World :=
  ⟨[[⟨.Grass, .None, 0⟩, ⟨.Teleport false, .None, 1⟩]], 2, 10, sunnyNoon⟩

/-- Witness state for the amended C3. -/
def c3wrobot : Robot := ⟨⟨2⟩, ⟨0, 0⟩, ⟨10, fun _ => 0⟩⟩

/-- Witness world for the amended C3 (move cost `0 + 2² = 4 > 2`). -/
def c3wworld : World :=
  ⟨[[⟨.Grass, .None, 0⟩, ⟨.Teleport false, .None, 2⟩]], 2, 10, sunnyNoon⟩

/-- Failing input for C2: two rocks (fewer than the three the first
garbage recipe requires) and nothing else. -/
def c2robot : Robot :=
  ⟨⟨1000⟩, ⟨0, 0⟩, ⟨100, fun c => if c = Content.Rock 0 then 2 else 0⟩⟩

/-- Witness state for C7. -/
def c7robot : Robot := ⟨⟨100⟩, ⟨0, 0⟩, ⟨10, fun _ => 0⟩⟩

/-- Witness world for C7: one tile, budget 5 (coordinate `(3,3)` is out
of bounds). -/
def c7world : World := ⟨[[⟨.Sand, .Fish 2, 0⟩]], 1, 5, sunnyNoon⟩

/-- `HashMap::get` over the association list of inserts: the last insert
for a key wins. -/
def hm_get (l : List ((Nat × Nat) × Option Tile)) (k : Nat × Nat) : Option (Option Tile) :=
  (l.reverse.find? fun p => decide (p.1 = k)).map Prod.snd

/-- Witness state for C10: seven garbage, at `(0,1)`. -/
def c10robot : Robot :=
  ⟨⟨500⟩, ⟨0, 1⟩, ⟨100, fun c => if c = Content.Garbage 0 then 7 else 0⟩⟩

/-- Witness world for C10: a `Market(3)` at `(1,1)` on a 3×3 grass map. -/
def c10world : World :=
  ⟨[[⟨.Grass, .None, 0⟩, ⟨.Grass, .None, 0⟩, ⟨.Grass, .None, 0⟩],
    [⟨.Grass, .None, 0⟩, ⟨.Grass, .Market 3, 0⟩, ⟨.Grass, .None, 0⟩],
    [⟨.Grass, .None, 0⟩, ⟨.Grass, .None, 0⟩, ⟨.Grass, .None, 0⟩]], 3, 10, sunnyNoon⟩

/-! ## Shared definitions for claims C6, C8 and C9 -/

/-- Robot for the C6 bank-deposit scenario: 20 coins held. -/
def c6robot : Robot :=
  ⟨⟨100⟩, ⟨0, 1⟩, ⟨30, fun c => if c = Content.Coin 0 then 20 else 0⟩⟩

/-- World for the C6 scenario: `Bank(0..11)` at cell (1, 1). -/
def c6world : World :=
  ⟨[[⟨.Grass, .None, 0⟩, ⟨.Grass, .None, 0⟩, ⟨.Grass, .None, 0⟩],
    [⟨.Grass, .None, 0⟩, ⟨.Grass, .Bank 0 11, 0⟩, ⟨.Grass, .None, 0⟩],
    [⟨.Grass, .None, 0⟩, ⟨.Grass, .None, 0⟩, ⟨.Grass, .None, 0⟩]], 3, 0, sunnyNoon⟩

/-- The clipped viewing distance `min(distance, tiles remaining to the
edge)` computed by each arm of `one_direction_view`. -/
def clippedDist (robot : Robot) (world : World) (direction : Direction)
    (distance : Nat) : Nat :=
  match direction with
  | .Up => min distance robot.coordinate.row
  | .Down => min distance (world.dimension - robot.coordinate.row - 1)
  | .Left => min distance robot.coordinate.col
  | .Right => min distance (world.dimension - robot.coordinate.col - 1)

/-- The tile strip assembled by the success path of `one_direction_view`:
`d` steps away from the actor (never including the actor's own row or
column of departure), against the clipped 3-wide cross range. -/
def viewStrip (robot : Robot) (world : World) (direction : Direction)
    (d : Nat) : List (List Tile) :=
  match direction with
  | .Up => (List.range d).map fun i =>
      (colRange robot world).map fun col => tileAt world (robot.coordinate.row - (i + 1)) col
  | .Down => (List.range d).map fun i =>
      (colRange robot world).map fun col => tileAt world (robot.coordinate.row + (i + 1)) col
  | .Left => (rowRange robot world).map fun row =>
      (List.range d).map fun j => tileAt world row (robot.coordinate.col - (j + 1))
  | .Right => (rowRange robot world).map fun row =>
      (List.range d).map fun j => tileAt world row (robot.coordinate.col + (j + 1))

/-- Robot and world for the C8 witness (corner actor, 3x3 map). -/
def c8robot : Robot := ⟨⟨100⟩, ⟨0, 0⟩, ⟨10, fun _ => 0⟩⟩

def c8world : World :=
  ⟨[[⟨.Grass, .None, 0⟩, ⟨.Grass, .None, 0⟩, ⟨.Grass, .None, 0⟩],
    [⟨.Sand, .None, 0⟩, ⟨.Grass, .Fish 1, 0⟩, ⟨.Grass, .None, 0⟩],
    [⟨.Grass, .None, 0⟩, ⟨.Grass, .None, 0⟩, ⟨.Hill, .None, 0⟩]], 3, 0, sunnyNoon⟩

/-- The predecessor chain from `v` reaches a `none` entry in finitely
many steps. -/
inductive PredTerm (pred : Nat → Option Nat) : Nat → Prop where
  | base (v : Nat) : pred v = Option.none → PredTerm pred v
  | step (v u : Nat) : pred v = some u → PredTerm pred u → PredTerm pred v

/-- The invariant tying the mutable state of `dijkstra` to the pending
heap.  `exv`/`todo` carve out the adjacency entries of the node whose
relaxation is still in progress (`todo = []` is the between-iterations
invariant, in which no edge is exempt). -/
structure DInv (graph : List (List DNode)) (start : Nat) (exv : Nat)
    (todo : List DNode) (s : DState) (heap : List DNode) : Prop where
  dist_start : s.dist start = some 0
  dist_sound : ∀ v d, s.dist v = some d →
    ∃ n : Nat, d = (n : Int) ∧ n < INFn ∧ PathW graph start v n
  heap_idx : ∀ e ∈ heap, e.index < graph.length
  heap_path : ∀ e ∈ heap, PathW graph start e.index e.distance ∧ e.distance < INFn
  heap_le : ∀ e ∈ heap, ∃ n : Nat, s.dist e.index = some (n : Int) ∧ n ≤ e.distance
  live : ∀ v (n : Nat), s.dist v = some (n : Int) → s.visited v = false →
    DNode.mk v n ∈ heap
  visited_min : ∀ v, s.visited v = true →
    ∃ n : Nat, s.dist v = some (n : Int) ∧ IsMinDist graph start v n
  visited_relaxed : ∀ u (du : Nat) v w, s.visited u = true → EdgeG graph u v w →
    (u = exv → DNode.mk v w ∉ todo) → s.dist u = some (du : Int) →
    (∃ n : Nat, s.dist v = some (n : Int) ∧ n ≤ du + w) ∨ INFn ≤ du + w
  pred_vis : ∀ v u, s.pred v = some u → s.visited u = true
  pred_edge : ∀ v u, s.pred v = some u → ∃ w, EdgeG graph u v w
  pred_dist : ∀ v u, s.pred v = some u → ∃ d, s.dist v = some d
  pred_none_start : s.pred start = Option.none
  dist_pred : ∀ v, v ≠ start → ∀ d, s.dist v = some d → ∃ u, s.pred v = some u
  pred_term : ∀ v, PredTerm s.pred v

/-- The number of unvisited labels below `graph.length`. -/
def unvisCount (graph : List (List DNode)) (s : DState) : Nat :=
  (List.range graph.length).countP fun x => ! s.visited x

/-- A 1×2 grid whose second cell sits at elevation 60000: the edge into
it costs `1 + 60000² = 3600000001 > i32::MAX`. -/
def cexGrid : List (List Tile) :=
  [[⟨.Grass, .None, 0⟩, ⟨.Grass, .None, 60000⟩]]

/-- The adjacency graph `change_matrix` builds from `cexGrid`. -/
def cexGraph : List (List DNode) := (change_matrix cexGrid (.TileType .Grass)).1

/-! ## Claim C4: energy bounds -/

/-- A call of the energy mutators: `consume_energy` or `recharge_energy`. -/
inductive EnergyOp where
  | consume (n : Nat)
  | recharge (n : Nat)

/-- One mutator call against an `Energy` value: a failed `consume_energy`
leaves the level unchanged (the `Err` early-return). -/
def applyEnergyOp (e : Energy) (op : EnergyOp) : Energy :=
  match op with
  | .consume n =>
    match e.consume_energy n with
    | .ok e' => e'
    | .error _ => e
  | .recharge n => e.recharge_energy n

theorem applyEnergyOp_le_max (e : Energy) (h : e.energy_level ≤ MAX_ENERGY_LEVEL)
    (op : EnergyOp) : (applyEnergyOp e op).energy_level ≤ MAX_ENERGY_LEVEL := by
  cases op with
  | consume n =>
    by_cases hc : e.has_enough_energy n = true
    · simp only [applyEnergyOp, Energy.consume_energy, hc, if_true]
      exact le_trans (Nat.sub_le _ _) h
    · simp only [applyEnergyOp, Energy.consume_energy, hc, if_false,
        Bool.false_eq_true]
      exact h
  | recharge n =>
    simp only [applyEnergyOp, Energy.recharge_energy]
    exact Nat.min_le_left _ _

/-- C4.  For every sequence of `consume_energy`/`recharge_energy` calls
starting from a level within the cap, `0 ≤ energy_level ≤ 1000` always
holds (the lower bound is intrinsic to the `usize` level, modelled as
`Nat`); `consume_energy n` with `energy_level < n` returns
`NotEnoughEnergy` and leaves the level unchanged, and
`recharge_energy` saturates at `MAX_ENERGY_LEVEL`. -/
theorem energy_bounds_consume_recharge (e : Energy)
    (h : e.energy_level ≤ MAX_ENERGY_LEVEL) :
    (∀ ops : List EnergyOp,
       (ops.foldl applyEnergyOp e).energy_level ≤ MAX_ENERGY_LEVEL) ∧
    (∀ n, e.energy_level < n →
       e.consume_energy n = .error .NotEnoughEnergy ∧ applyEnergyOp e (.consume n) = e) ∧
    (∀ n, (e.recharge_energy n).energy_level = min MAX_ENERGY_LEVEL (e.energy_level + n) ∧
       (e.recharge_energy n).energy_level ≤ MAX_ENERGY_LEVEL) := by
  refine ⟨?_, ?_, ?_⟩
  · intro ops
    induction ops generalizing e with
    | nil => exact h
    | cons op rest ih =>
      exact ih (applyEnergyOp e op) (applyEnergyOp_le_max e h op)
  · intro n hn
    have hne : e.has_enough_energy n = false := by
      simp [Energy.has_enough_energy, Nat.not_le.mpr hn]
    constructor
    · simp [Energy.consume_energy, hne]
    · simp [applyEnergyOp, Energy.consume_energy, hne]
  · intro n
    exact ⟨rfl, Nat.min_le_left _ _⟩

theorem energy_bounds_consume_recharge_witness :
    ((⟨500⟩ : Energy).energy_level ≤ MAX_ENERGY_LEVEL) ∧
    ((∀ ops : List EnergyOp,
        (ops.foldl applyEnergyOp ⟨500⟩).energy_level ≤ MAX_ENERGY_LEVEL) ∧
     (∀ n, (⟨500⟩ : Energy).energy_level < n →
        (⟨500⟩ : Energy).consume_energy n = .error .NotEnoughEnergy ∧
          applyEnergyOp ⟨500⟩ (.consume n) = ⟨500⟩) ∧
     (∀ n, ((⟨500⟩ : Energy).recharge_energy n).energy_level =
         min MAX_ENERGY_LEVEL ((⟨500⟩ : Energy).energy_level + n) ∧
       ((⟨500⟩ : Energy).recharge_energy n).energy_level ≤ MAX_ENERGY_LEVEL)) :=
  ⟨by decide, energy_bounds_consume_recharge ⟨500⟩ (by decide)⟩

/-! ## Claim C5: backpack capacity -/

theorem to_default_mem_defaultContents (c : Content) :
    c.to_default ∈ defaultContents := by
  cases c <;> simp [Content.to_default, defaultContents]

theorem defaultContents_nodup : defaultContents.Nodup := by decide

theorem sum_map_update (f : Content → Nat) (key : Content) (v : Nat) :
    ∀ l : List Content, l.Nodup → key ∈ l →
      (l.map fun c => if c = key then v else f c).sum + f key = (l.map f).sum + v := by
  intro l
  induction l with
  | nil => intro _ hmem; cases hmem
  | cons a rest ih =>
    intro hnodup hmem
    by_cases hak : a = key
    · subst hak
      have hrest : ∀ c ∈ rest, (if c = a then v else f c) = f c := by
        intro c hc
        have hca : c ≠ a := fun h => (List.nodup_cons.mp hnodup).1 (h ▸ hc)
        simp [hca]
      rw [List.map_cons, List.sum_cons, if_pos rfl, List.map_congr_left hrest,
        List.map_cons, List.sum_cons]
      omega
    · have hmem' : key ∈ rest := by
        rcases List.mem_cons.mp hmem with h | h
        · exact absurd h.symm hak
        · exact h
      have := ih (List.nodup_cons.mp hnodup).2 hmem'
      rw [List.map_cons, List.sum_cons, if_neg hak, List.map_cons, List.sum_cons]
      omega

theorem total_setContent (b : BackPack) (c : Content) (v : Nat) :
    (b.setContent c.to_default v).total + b.contents c.to_default = b.total + v := by
  simpa [BackPack.total, BackPack.setContent] using
    sum_map_update b.contents c.to_default v defaultContents defaultContents_nodup
      (to_default_mem_defaultContents c)

theorem add_to_backpack_size (robot : Robot) (c : Content) (n : Nat) :
    (add_to_backpack robot c n).1.backpack.size = robot.backpack.size := by
  simp only [add_to_backpack, BackPack.setContent]
  split <;> rfl

theorem add_to_backpack_total (robot : Robot) (c : Content) (n : Nat) :
    (add_to_backpack robot c n).1.backpack.total =
      robot.backpack.total + min n (robot.backpack.size - robot.backpack.total) := by
  have h := total_setContent robot.backpack c
    (robot.backpack.contents c.to_default + min n (robot.backpack.size - robot.backpack.total))
  simp only [add_to_backpack]
  split <;> · simp only []; omega

theorem add_to_backpack_total_le (robot : Robot)
    (h : robot.backpack.total ≤ robot.backpack.size) (c : Content) (n : Nat) :
    (add_to_backpack robot c n).1.backpack.total ≤ (add_to_backpack robot c n).1.backpack.size := by
  rw [add_to_backpack_total, add_to_backpack_size]
  have := Nat.min_le_right n (robot.backpack.size - robot.backpack.total)
  omega

/-- C5.  For every sequence of `add_to_backpack` calls starting from a
backpack within capacity, the sum of the stored quantities never exceeds
the capacity; and a single call adding `n` when the free space
`r = capacity − current_total` satisfies `r < n` stores exactly `r`
units (the key gains `r`, the backpack becomes exactly full) and returns
`NotEnoughSpace(r)`. -/
theorem backpack_capacity_partial_add (robot : Robot)
    (h : robot.backpack.total ≤ robot.backpack.size) :
    (∀ ops : List (Content × Nat),
       (ops.foldl (fun r cq => (add_to_backpack r cq.1 cq.2).1) robot).backpack.total ≤
         (ops.foldl (fun r cq => (add_to_backpack r cq.1 cq.2).1) robot).backpack.size) ∧
    (∀ c n, robot.backpack.size - robot.backpack.total < n →
       (add_to_backpack robot c n).2 =
           .error (.NotEnoughSpace (robot.backpack.size - robot.backpack.total)) ∧
         (add_to_backpack robot c n).1.backpack.contents c.to_default =
           robot.backpack.contents c.to_default +
             (robot.backpack.size - robot.backpack.total) ∧
         (add_to_backpack robot c n).1.backpack.total = robot.backpack.size) := by
  constructor
  · intro ops
    induction ops generalizing robot with
    | nil => exact h
    | cons op rest ih =>
      exact ih _ (add_to_backpack_total_le robot h op.1 op.2)
  · intro c n hn
    have hmin : min n (robot.backpack.size - robot.backpack.total) =
        robot.backpack.size - robot.backpack.total :=
      Nat.min_eq_right (Nat.le_of_lt hn)
    have hlt : ¬ robot.backpack.size - robot.backpack.total ≥ n := Nat.not_le.mpr hn
    refine ⟨?_, ?_, ?_⟩
    · simp [add_to_backpack, hlt, hmin]
    · simp [add_to_backpack, hlt, hmin, BackPack.setContent]
    · rw [add_to_backpack_total, hmin]
      omega

theorem backpack_capacity_partial_add_witness :
    c5robot.backpack.total ≤ c5robot.backpack.size ∧
    (c5robot.backpack.size - c5robot.backpack.total < 5 ∧
      (add_to_backpack c5robot (.Tree 0) 5).2 =
        .error (.NotEnoughSpace (c5robot.backpack.size - c5robot.backpack.total)) ∧
      (add_to_backpack c5robot (.Tree 0) 5).1.backpack.contents (Content.Tree 0) =
        c5robot.backpack.contents (Content.Tree 0) +
          (c5robot.backpack.size - c5robot.backpack.total) ∧
      (add_to_backpack c5robot (.Tree 0) 5).1.backpack.total = c5robot.backpack.size) :=
  ⟨by decide, by decide,
    (backpack_capacity_partial_add c5robot (by decide)).2 (.Tree 0) 5 (by decide)⟩

/-! ## Claim C1: destroy with insufficient backpack space -/

theorem in_bounds_ok_iff (robot : Robot) (world : World) (direction : Direction) :
    in_bounds robot world direction = .ok () ↔
      (match direction with
       | .Up => robot.coordinate.row ≠ 0
       | .Down => robot.coordinate.row ≠ world.dimension - 1
       | .Left => robot.coordinate.col ≠ 0
       | .Right => robot.coordinate.col ≠ world.dimension - 1) := by
  cases direction <;>
    · simp only [in_bounds]
      split <;> rename_i h <;> simp_all

theorem target_in_bounds (robot : Robot) (world : World) (direction : Direction)
    (hin : in_bounds robot world direction = .ok ())
    (hrow : robot.coordinate.row < world.dimension)
    (hcol : robot.coordinate.col < world.dimension) :
    (get_coords_row_col robot direction).1 < world.dimension ∧
      (get_coords_row_col robot direction).2 < world.dimension := by
  have h := (in_bounds_ok_iff robot world direction).mp hin
  cases direction <;> simp only [get_coords_row_col] <;> simp only [] at h <;>
    constructor <;> omega

/-- C1 counterexample.  Destroying `Rock(2)` with exactly one free
backpack slot: the source's `add_to_backpack(..)?` propagates the partial
`NotEnoughSpace(1)`, so the call fails (the claim says it succeeds and
returns the stored quantity) even though the free space is positive; the
partially-added rock stays in the backpack, while tile and energy are
untouched. -/
theorem destroy_partial_space_cex :
    (destroy c1robot c1world .Down 0).2.2 = .error (.NotEnoughSpace 1) ∧
    (tileAt (destroy c1robot c1world .Down 0).2.1 1 0).content = .Rock 2 ∧
    (destroy c1robot c1world .Down 0).1.energy = c1robot.energy ∧
    (destroy c1robot c1world .Down 0).1.backpack.contents (.Rock 0) = 1 :=
  ⟨rfl, rfl, rfl, rfl⟩

/-- C1 (amended).  For a destroy on a non-water tile holding a
destroyable, non-fire content of scalar quantity `q ≥ 1`, with enough
energy but free backpack space `r < q`: the call fails with
`NotEnoughSpace(r)` (for `r = 0` as well as `0 < r < q`), the tile's
content is not cleared, no energy is consumed, and the backpack has
gained exactly the `r` partially-stored units (unchanged when `r = 0`). -/
theorem to_default_idem (c : Content) : c.to_default.to_default = c.to_default := by
  cases c <;> rfl

theorem destroy_partial_space_amended (robot : Robot) (world : World)
    (direction : Direction) (rngWater : Nat) (tr tc : Nat) (tt : TileType)
    (c : Content) (elev q : Nat)
    (hin : in_bounds robot world direction = .ok ())
    (hcoords : get_coords_row_col robot direction = (tr, tc))
    (htile : tileAt world tr tc = ⟨tt, c, elev⟩)
    (htr : tr < world.dimension) (htc : tc < world.dimension)
    (htt1 : tt ≠ .ShallowWater) (htt2 : tt ≠ .DeepWater)
    (hdes : c.properties.destroy = true) (hfire : c ≠ .Fire)
    (hval : c.get_value.1 = some q) (hq : 0 < q)
    (hspace : robot.backpack.size - robot.backpack.total < q)
    (henergy : robot.energy.has_enough_energy c.properties.cost = true) :
    (destroy robot world direction rngWater).2.2 =
        .error (.NotEnoughSpace (robot.backpack.size - robot.backpack.total)) ∧
    (destroy robot world direction rngWater).2.1 = world ∧
    (destroy robot world direction rngWater).1.energy = robot.energy ∧
    (destroy robot world direction rngWater).1.coordinate = robot.coordinate ∧
    (∀ x, (destroy robot world direction rngWater).1.backpack.contents x =
      robot.backpack.contents x +
        (if x = c.to_default then robot.backpack.size - robot.backpack.total else 0)) := by
  have hnone : c ≠ .None := by
    intro h
    rw [h] at hdes
    simp [Content.properties] at hdes
  have hnwater : ¬ (tt = TileType.ShallowWater ∨ tt = TileType.DeepWater) := by
    rintro (h | h) <;> [exact htt1 h; exact htt2 h]
  have hcd : can_destroy world (tr, tc) = .ok true := by
    simp only [can_destroy, go_allowed_row_col, htile]
    rw [if_neg, if_neg]
    · rw [hdes]
    · exact hnone
    · simp [htr, htc]
  have hremlt : ¬ (robot.backpack.size - robot.backpack.total ≥ q) := Nat.not_le.mpr hspace
  have hmin : min q (robot.backpack.size - robot.backpack.total) =
      robot.backpack.size - robot.backpack.total := Nat.min_eq_right (Nat.le_of_lt hspace)
  have hval' : c.get_value.1.getD 0 = q := by rw [hval]; rfl
  have hadd : add_to_backpack robot c.to_default q =
      (⟨robot.energy, robot.coordinate,
        robot.backpack.setContent c.to_default (robot.backpack.contents c.to_default +
          (robot.backpack.size - robot.backpack.total))⟩,
       .error (.NotEnoughSpace (robot.backpack.size - robot.backpack.total))) := by
    simp only [add_to_backpack, to_default_idem, hmin, if_neg hremlt]
  have hw1 : ¬ ((tt = TileType.ShallowWater ∨ tt = TileType.DeepWater) ∧ c = Content.None) :=
    fun h => hnwater h.1
  simp only [destroy, hin, hcoords, htile, if_neg hw1, if_neg hfire]
  rw [if_pos hnwater, hcd]
  simp only [not_true, and_false, if_neg (fun h : _ ∧ ¬ (true = true) => h.2 rfl),
    if_pos rfl, hval', henergy, if_true, hadd]
  simp only [if_false]
  refine ⟨trivial, trivial, trivial, trivial, ?_⟩
  intro x
  by_cases hx : x = c.to_default <;> simp [BackPack.setContent, hx]

theorem destroy_partial_space_amended_witness :
    (destroy c1wrobot c1wworld .Down 0).2.2 =
        .error (.NotEnoughSpace (c1wrobot.backpack.size - c1wrobot.backpack.total)) ∧
    (destroy c1wrobot c1wworld .Down 0).2.1 = c1wworld ∧
    (destroy c1wrobot c1wworld .Down 0).1.energy = c1wrobot.energy ∧
    (destroy c1wrobot c1wworld .Down 0).1.coordinate = c1wrobot.coordinate ∧
    (∀ x, (destroy c1wrobot c1wworld .Down 0).1.backpack.contents x =
      c1wrobot.backpack.contents x +
        (if x = (Content.Rock 4).to_default then
          c1wrobot.backpack.size - c1wrobot.backpack.total else 0)) :=
  destroy_partial_space_amended c1wrobot c1wworld .Down 0 1 0 .Grass (.Rock 4) 0 4
    rfl rfl rfl (by decide) (by decide) (by decide) (by decide) (by decide) (by decide)
    rfl (by decide) (by decide) (by decide)

/-! ## Claim C3: move failure and teleport activation -/

/-- C3 counterexample.  A `go` that fails `NotEnoughEnergy` onto an
unactivated teleport tile: the source flips the activation flag *before*
consuming energy, so the map is mutated on this failure path (the claim
says position *and the whole world map* are unchanged). -/
theorem go_failure_flips_teleport_cex :
    (go c3robot c3world .Right).2.2 = .error .NotEnoughEnergy ∧
    (go c3robot c3world .Right).2.1 ≠ c3world ∧
    (tileAt (go c3robot c3world .Right).2.1 0 1).tile_type = .Teleport true := by
  refine ⟨rfl, fun h => ?_, rfl⟩
  have h1 : (tileAt (go c3robot c3world .Right).2.1 0 1).tile_type = .Teleport true := rfl
  rw [h] at h1
  exact absurd h1 (by decide)

theorem go_allowed_error_cases (robot : Robot) (world : World) (direction : Direction)
    (e : LibError) (h : go_allowed robot world direction = .error e) :
    e = .OutOfBounds ∨ e = .CannotWalk := by
  simp only [go_allowed, in_bounds] at h
  split at h
  · rename_i e' heq
    injection h with h2
    subst h2
    split at heq
    · injection heq with h3
      exact Or.inl h3.symm
    · exact Except.noConfusion heq
  · split at h
    · exact Except.noConfusion h
    · injection h with h2
      exact Or.inr h2.symm

/-- C3 (amended).  When `go` fails with `NotEnoughEnergy`, the robot
(position, energy, backpack) is unchanged, and the map is unchanged
*except* that an unactivated teleport destination has already been
activated (the flip happens before the energy check); on a successful
move the destination teleport flag is set exactly once, and moving onto
an already-activated teleport leaves the map unchanged. -/
theorem go_energy_failure_teleport (robot : Robot) (world : World)
    (direction : Direction) (tr tc : Nat)
    (hcoords : get_coords_row_col robot direction = (tr, tc)) :
    ((go robot world direction).2.2 = .error .NotEnoughEnergy →
       (go robot world direction).1 = robot ∧
       ((tileAt world tr tc).tile_type = .Teleport false →
          (go robot world direction).2.1 = setTileType world tr tc (.Teleport true)) ∧
       ((tileAt world tr tc).tile_type ≠ .Teleport false →
          (go robot world direction).2.1 = world)) ∧
    (∀ p, (go robot world direction).2.2 = .ok p →
       ((tileAt world tr tc).tile_type = .Teleport false →
          (go robot world direction).2.1 = setTileType world tr tc (.Teleport true)) ∧
       ((tileAt world tr tc).tile_type ≠ .Teleport false →
          (go robot world direction).2.1 = world)) := by
  cases hga : go_allowed robot world direction with
  | error e =>
    have he := go_allowed_error_cases robot world direction e hga
    simp only [go, hga]
    constructor
    · intro h
      rcases he with rfl | rfl <;> cases h
    · intro p h
      cases h
  | ok u =>
    cases u
    by_cases hflip : (tileAt world tr tc).tile_type = .Teleport false
    · simp only [go, hga, hcoords, if_pos hflip]
      cases hce : Energy.consume_energy robot.energy
          (calculate_cost_go_with_environment (tileAt world tr tc).tile_type.properties.cost
              world.environmental_conditions (tileAt world tr tc).tile_type +
            if (tileAt world robot.coordinate.row robot.coordinate.col).elevation <
                (tileAt world tr tc).elevation then
              ((tileAt world tr tc).elevation -
                  (tileAt world robot.coordinate.row robot.coordinate.col).elevation) ^ 2
            else 0) with
      | error e =>
        exact ⟨fun _ => ⟨rfl, fun _ => rfl, fun h => absurd hflip h⟩,
          fun p h => nomatch h⟩
      | ok en =>
        constructor
        · intro h
          exact nomatch h
        · intro p hp
          constructor
          · intro hh
            rfl
          · intro hh
            exact absurd hflip hh
    · simp only [go, hga, hcoords, if_neg hflip]
      cases hce : Energy.consume_energy robot.energy
          (calculate_cost_go_with_environment (tileAt world tr tc).tile_type.properties.cost
              world.environmental_conditions (tileAt world tr tc).tile_type +
            if (tileAt world robot.coordinate.row robot.coordinate.col).elevation <
                (tileAt world tr tc).elevation then
              ((tileAt world tr tc).elevation -
                  (tileAt world robot.coordinate.row robot.coordinate.col).elevation) ^ 2
            else 0) with
      | error e =>
        exact ⟨fun _ => ⟨rfl, fun h => absurd h hflip, fun _ => rfl⟩, fun p h => nomatch h⟩
      | ok en =>
        constructor
        · intro h
          exact nomatch h
        · intro p hp
          constructor
          · intro hh
            exact absurd hh hflip
          · intro hh
            rfl

theorem go_energy_failure_teleport_witness :
    ((go c3wrobot c3wworld .Right).2.2 = .error .NotEnoughEnergy →
       (go c3wrobot c3wworld .Right).1 = c3wrobot ∧
       ((tileAt c3wworld 0 1).tile_type = .Teleport false →
          (go c3wrobot c3wworld .Right).2.1 = setTileType c3wworld 0 1 (.Teleport true)) ∧
       ((tileAt c3wworld 0 1).tile_type ≠ .Teleport false →
          (go c3wrobot c3wworld .Right).2.1 = c3wworld)) ∧
    (∀ p, (go c3wrobot c3wworld .Right).2.2 = .ok p →
       ((tileAt c3wworld 0 1).tile_type = .Teleport false →
          (go c3wrobot c3wworld .Right).2.1 = setTileType c3wworld 0 1 (.Teleport true)) ∧
       ((tileAt c3wworld 0 1).tile_type ≠ .Teleport false →
          (go c3wrobot c3wworld .Right).2.1 = c3wworld)) :=
  go_energy_failure_teleport c3wrobot c3wworld .Right 0 1 rfl

/-! ## Claim C2: craft recipe iteration -/

/-- C2.  The claim (and the interface's own documentation: the chosen
recipe is "the one that uses content the robot has enough of in the
backpack") says a partial removal is rolled back and the *next* recipe
is tried, failing `NotCraftable` when no recipe is fully satisfiable.
The code rolls the partial removal back but then falls through and
crafts anyway (the `continue` is missing): with only 2 rocks (recipe
needs 3) and no tree/fish, `craft(Garbage)` succeeds, returns the
garbage, re-adds the 2 rocks, and charges only energy. -/
theorem craft_partial_removal_still_crafts :
    (craft c2robot (.Garbage 0)).2 = .ok (.Garbage 0) ∧
    (craft c2robot (.Garbage 0)).1.backpack.contents (.Rock 0) = 2 ∧
    (craft c2robot (.Garbage 0)).1.backpack.contents (.Garbage 0) = 1 ∧
    (craft c2robot (.Garbage 0)).1.energy.energy_level =
      1000 - (Content.Garbage 0).properties.cost :=
  ⟨rfl, rfl, rfl, rfl⟩

/-! ## Claim C7: discover_tiles -/

theorem hm_get_of_mapped (f : Nat × Nat → Option Tile) (l : List (Nat × Nat))
    (k : Nat × Nat) (hk : k ∈ l) :
    hm_get (l.map fun xy => (xy, f xy)) k = some (f k) := by
  unfold hm_get
  have hmem : ((k, f k)) ∈ (l.map fun xy => (xy, f xy)).reverse := by
    rw [List.mem_reverse]
    exact List.mem_map.mpr ⟨k, hk, rfl⟩
  have hsome : ((l.map fun xy => (xy, f xy)).reverse.find? fun q => decide (q.1 = k)).isSome := by
    rw [List.find?_isSome]
    exact ⟨(k, f k), hmem, by simp⟩
  obtain ⟨pr, hp⟩ := Option.isSome_iff_exists.mp hsome
  have hpk := List.find?_some hp
  rw [decide_eq_true_eq] at hpk
  have hpmem := List.mem_of_find?_eq_some hp
  rw [List.mem_reverse] at hpmem
  rw [hp]
  obtain ⟨xy, hxymem, hxy⟩ := List.mem_map.mp hpmem
  subst hxy
  have hxyk : xy = k := hpk
  subst hxyk
  rfl

/-- C7.  `discover_tiles` with `k` requested coordinates:
fails `NoMoreDiscovery` with budget and energy (and everything else)
unchanged when `k` exceeds the remaining budget; fails `NotEnoughEnergy`
unchanged when the flat `3·k` cost is unaffordable; on success it
decrements the budget by exactly `k` (out-of-bounds coordinates
included), consumes exactly `3·k` energy, and maps each in-bounds
coordinate to its tile snapshot and each out-of-bounds one to `none`. -/
theorem discover_tiles_budget_energy_mapping (robot : Robot) (world : World)
    (to_discover : List (Nat × Nat)) :
    (world.discoverable < to_discover.length →
       discover_tiles robot world to_discover = (robot, world, .error .NoMoreDiscovery)) ∧
    (to_discover.length ≤ world.discoverable →
       robot.energy.energy_level < to_discover.length * 3 →
       discover_tiles robot world to_discover = (robot, world, .error .NotEnoughEnergy)) ∧
    (to_discover.length ≤ world.discoverable →
       to_discover.length * 3 ≤ robot.energy.energy_level →
       (discover_tiles robot world to_discover).2.1.discoverable =
           world.discoverable - to_discover.length ∧
       (discover_tiles robot world to_discover).2.1.map = world.map ∧
       (discover_tiles robot world to_discover).1.energy.energy_level =
           robot.energy.energy_level - to_discover.length * 3 ∧
       ∃ out, (discover_tiles robot world to_discover).2.2 = .ok out ∧
         ∀ xy ∈ to_discover, hm_get out xy =
           some (if xy.1 < world.map.length ∧ xy.2 < (world.map.getD xy.1 []).length then
             some (tileAt world xy.1 xy.2) else Option.none)) := by
  refine ⟨?_, ?_, ?_⟩
  · intro h
    have hb : ¬ (world.discoverable ≥ to_discover.length) := Nat.not_le.mpr h
    simp [discover_tiles, hb]
  · intro hb he
    have hhe : ¬ (robot.energy.has_enough_energy (to_discover.length * 3) = true) := by
      simp [Energy.has_enough_energy]
      omega
    simp [discover_tiles, hb, hhe]
  · intro hb he
    have hge : world.discoverable ≥ to_discover.length := hb
    have hhe : robot.energy.has_enough_energy (to_discover.length * 3) = true := by
      simp only [Energy.has_enough_energy, decide_eq_true_eq]
      omega
    simp only [discover_tiles, if_pos hge, hhe, if_true, Energy.consume_energy, ite_true]
    refine ⟨trivial, trivial, trivial, ?_⟩
    refine ⟨_, rfl, ?_⟩
    intro xy hxy
    have hmg := hm_get_of_mapped
      (fun xy => if xy.1 < world.map.length ∧ xy.2 < (world.map.getD xy.1 []).length then
        some (tileAt world xy.1 xy.2) else Option.none) to_discover xy hxy
    rw [← hmg]
    congr 1
    apply List.map_congr_left
    intro a _
    obtain ⟨x, y⟩ := a
    show (if x < world.map.length ∧ y < (world.map.getD x []).length then
        ((x, y), some (tileAt world x y)) else ((x, y), (Option.none : Option Tile))) =
      ((x, y), if x < world.map.length ∧ y < (world.map.getD x []).length then
        some (tileAt world x y) else Option.none)
    by_cases hc : x < world.map.length ∧ y < (world.map.getD x []).length
    · rw [if_pos hc, if_pos hc]
    · rw [if_neg hc, if_neg hc]

theorem discover_tiles_budget_energy_mapping_witness :
    ([((0 : Nat), (0 : Nat)), (3, 3)].length ≤ c7world.discoverable) ∧
    ([((0 : Nat), (0 : Nat)), (3, 3)].length * 3 ≤ c7robot.energy.energy_level) ∧
    ((discover_tiles c7robot c7world [(0, 0), (3, 3)]).2.1.discoverable =
        c7world.discoverable - [((0 : Nat), (0 : Nat)), (3, 3)].length ∧
     (discover_tiles c7robot c7world [(0, 0), (3, 3)]).2.1.map = c7world.map ∧
     (discover_tiles c7robot c7world [(0, 0), (3, 3)]).1.energy.energy_level =
        c7robot.energy.energy_level - [((0 : Nat), (0 : Nat)), (3, 3)].length * 3 ∧
     ∃ out, (discover_tiles c7robot c7world [(0, 0), (3, 3)]).2.2 = .ok out ∧
       ∀ xy ∈ [((0 : Nat), (0 : Nat)), (3, 3)], hm_get out xy =
         some (if xy.1 < c7world.map.length ∧ xy.2 < (c7world.map.getD xy.1 []).length then
           some (tileAt c7world xy.1 xy.2) else Option.none)) :=
  ⟨by decide, by decide,
    (discover_tiles_budget_energy_mapping c7robot c7world [(0, 0), (3, 3)]).2.2
      (by decide) (by decide)⟩

/-! ## Claim C10: market sale with a zero-rate content -/

theorem add_to_backpack_pair_energy (r : Robot) (c : Content) (n : Nat)
    (r2 : Robot) (res : Except LibError Nat) (h : add_to_backpack r c n = (r2, res)) :
    r2.energy = r.energy := by
  have hE : (add_to_backpack r c n).1.energy = r.energy := by
    simp only [add_to_backpack]
    split <;> rfl
  rw [h] at hE
  exact hE

/-- `remove_from_backpack` with something held always removes
`min(held, requested)` and reports that amount, without touching the
energy or the coordinate. -/
theorem remove_from_backpack_pos (robot : Robot) (content : Content)
    (quantity : Nat)
    (h0 : ¬ robot.backpack.contents content.to_default = 0) :
    remove_from_backpack robot content quantity =
      (⟨robot.energy, robot.coordinate,
        robot.backpack.setContent content.to_default
          (robot.backpack.contents content.to_default -
            min (robot.backpack.contents content.to_default) quantity)⟩,
       .ok (min (robot.backpack.contents content.to_default) quantity)) := by
  simp only [remove_from_backpack, if_neg h0]
  by_cases hvq : robot.backpack.contents content.to_default ≤ quantity
  · rw [if_pos hvq]
    have hmin : min (robot.backpack.contents content.to_default) quantity =
        robot.backpack.contents content.to_default := Nat.min_eq_left hvq
    rw [hmin, Nat.sub_self]
  · rw [if_neg hvq]
    have hmin : min (robot.backpack.contents content.to_default) quantity =
        quantity := Nat.min_eq_right (by omega)
    rw [hmin]

set_option maxHeartbeats 1000000 in
/-- C10.  A `put` whose target holds `Market(n)` with `n ≥ 1`, selling a
held content: the market's remaining-operations counter is decremented
(before the removal), no energy is consumed on any path of the market
arm, and when the content's exchange rate is zero (anything but rock,
tree or fish) the call returns `WrongContentUsed` with
`min(held, quantity)` units already removed from the backpack — state is
mutated on this error path. -/
theorem put_market_wrong_content_mutates (robot : Robot) (world : World)
    (content_in : Content) (quantity : Nat) (direction : Direction) (rngRock : Nat)
    (tr tc : Nat) (tt : TileType) (n elev : Nat)
    (hin : in_bounds robot world direction = .ok ())
    (hcoords : get_coords_row_col robot direction = (tr, tc))
    (htile : tileAt world tr tc = ⟨tt, .Market n, elev⟩)
    (hn : 1 ≤ n) (hnn : content_in ≠ .None)
    (hheld : 0 < robot.backpack.contents content_in.to_default) :
    ∃ r' res, put robot world content_in quantity direction rngRock =
        (r', setTileContent world tr tc (.Market (n - 1)), res) ∧
      r'.energy = robot.energy ∧
      (marketCoins content_in = 0 →
        res = .error .WrongContentUsed ∧
        r'.backpack.contents content_in.to_default =
          robot.backpack.contents content_in.to_default -
            min (robot.backpack.contents content_in.to_default) quantity) := by
  have hn0 : ¬ (n < 1) := by omega
  have h0 : ¬ (robot.backpack.contents content_in.to_default = 0) := by omega
  have hnn' : ¬ (content_in = Content.None ∧ tt ≠ TileType.Mountain) := fun h => hnn h.1
  simp only [put, hin, hcoords, htile, if_neg hnn', if_neg hn0]
  rw [remove_from_backpack_pos robot content_in quantity h0]
  by_cases hc0 : marketCoins content_in = 0
  · simp only [if_pos hc0]
    refine ⟨_, _, rfl, rfl, fun _ => ⟨rfl, ?_⟩⟩
    simp [BackPack.setContent]
  · simp only [if_neg hc0]
    split
    · rename_i robot2 er heq
      have hE := add_to_backpack_pair_energy _ _ _ _ _ heq
      exact ⟨robot2, .error er, rfl, hE, fun h => absurd h hc0⟩
    · rename_i robot2 added heq
      have hE := add_to_backpack_pair_energy _ _ _ _ _ heq
      exact ⟨robot2, .ok added, rfl, hE, fun h => absurd h hc0⟩

theorem put_market_wrong_content_mutates_witness :
    ∃ r' res, put c10robot c10world (.Garbage 0) 4 .Down 0 =
        (r', setTileContent c10world 1 1 (.Market (3 - 1)), res) ∧
      r'.energy = c10robot.energy ∧
      (marketCoins (.Garbage 0) = 0 →
        res = .error .WrongContentUsed ∧
        r'.backpack.contents (Content.Garbage 0).to_default =
          c10robot.backpack.contents (Content.Garbage 0).to_default -
            min (c10robot.backpack.contents (Content.Garbage 0).to_default) 4) :=
  put_market_wrong_content_mutates c10robot c10world (.Garbage 0) 4 .Down 0 1 1 .Grass 3 0
    rfl rfl rfl (by decide) (by decide) (by decide)

/-! ## Claim C6: depositing coins into a bank -/

/-- C6.  A `put` of 5 coins toward a tile holding `Bank(0..11)` while 20
coins are held succeeds with `Ok(5)`, rewrites the tile to `Bank(5..11)`
and leaves 15 coins in the backpack.  The scenario's "enough energy"
premise is vacuous: the bank's unit interaction cost is 0, so the
deposit consumes no energy at all. -/
theorem put_coin_bank_deposit (robot : Robot) (world : World)
    (direction : Direction) (rngRock : Nat) (tr tc : Nat) (tt : TileType) (elev : Nat)
    (hin : in_bounds robot world direction = .ok ())
    (hcoords : get_coords_row_col robot direction = (tr, tc))
    (htile : tileAt world tr tc = ⟨tt, .Bank 0 11, elev⟩)
    (hcoin : robot.backpack.contents (Content.Coin 0) = 20) :
    ∃ r', put robot world (.Coin 0) 5 direction rngRock =
        (r', setTileContent world tr tc (.Bank 5 11), .ok 5) ∧
      r'.backpack.contents (Content.Coin 0) = 15 ∧
      r'.energy.energy_level = robot.energy.energy_level := by
  simp only [put, hin, hcoords, htile]
  simp only [can_store, Content.to_default, Content.properties, not_craftable,
    Energy.has_enough_energy, remove_from_backpack, hcoin, Energy.consume_energy]
  norm_num
  refine ⟨_, rfl, ?_, rfl⟩
  simp [BackPack.setContent]

theorem put_coin_bank_deposit_witness :
    ∃ r', put c6robot c6world (.Coin 0) 5 .Down 0 =
        (r', setTileContent c6world 1 1 (.Bank 5 11), .ok 5) ∧
      r'.backpack.contents (Content.Coin 0) = 15 ∧
      r'.energy.energy_level = c6robot.energy.energy_level :=
  put_coin_bank_deposit c6robot c6world .Down 0 1 1 .Grass 0 rfl rfl rfl rfl

/-! ## Claim C8: one_direction_view cost and strip -/

/-- C8.  `one_direction_view` with clipped distance
`d = min(distance, tiles remaining to the edge)`: a zero `d` is a free
empty view; viewing is free when `d ≤ 1` and otherwise costs exactly
`d × 3` energy, failing `NotEnoughEnergy` with the actor unchanged when
that price is unaffordable; on success the returned strip is exactly
`viewStrip` — the tiles `1..d` steps away against the clipped 3-wide
cross range, excluding the actor's own tile and narrowing at map edges
instead of padding. -/
theorem one_direction_view_cost_strip (robot : Robot) (world : World)
    (direction : Direction) (distance d : Nat)
    (hd : clippedDist robot world direction distance = d) :
    (d = 0 → one_direction_view robot world direction distance = (robot, .ok [])) ∧
    (1 ≤ d → robot.energy.has_enough_energy (if d ≤ 1 then 0 else d * 3) = true →
      one_direction_view robot world direction distance =
        (⟨⟨robot.energy.energy_level - (if d ≤ 1 then 0 else d * 3)⟩,
          robot.coordinate, robot.backpack⟩,
         .ok (viewStrip robot world direction d))) ∧
    (robot.energy.has_enough_energy (if d ≤ 1 then 0 else d * 3) = false →
      one_direction_view robot world direction distance =
        (robot, .error .NotEnoughEnergy)) := by
  have hzero : robot.energy.has_enough_energy 0 = true := by
    simp [Energy.has_enough_energy]
  cases direction with
  | Up =>
    simp only [clippedDist] at hd
    refine ⟨?_, ?_, ?_⟩
    · intro h0
      simp [one_direction_view, hd, h0]
    · intro h1 hE
      have hne : d = 0 → False := by omega
      simp [one_direction_view, hd, hne, check_price_view, hE,
        Energy.consume_energy, viewStrip]
      exact fun h0 => absurd h0 hne
    · intro hE
      have hne : d = 0 → False := by
        intro h0
        rw [h0] at hE
        simp [hzero] at hE
      simp [one_direction_view, hd, hne, check_price_view, hE]
      exact hne
  | Down =>
    simp only [clippedDist] at hd
    refine ⟨?_, ?_, ?_⟩
    · intro h0
      simp [one_direction_view, hd, h0]
    · intro h1 hE
      have hne : d = 0 → False := by omega
      simp [one_direction_view, hd, hne, check_price_view, hE,
        Energy.consume_energy, viewStrip]
      exact fun h0 => absurd h0 hne
    · intro hE
      have hne : d = 0 → False := by
        intro h0
        rw [h0] at hE
        simp [hzero] at hE
      simp [one_direction_view, hd, hne, check_price_view, hE]
      exact hne
  | Left =>
    simp only [clippedDist] at hd
    refine ⟨?_, ?_, ?_⟩
    · intro h0
      simp [one_direction_view, hd, h0]
    · intro h1 hE
      have hne : d = 0 → False := by omega
      simp [one_direction_view, hd, hne, check_price_view, hE,
        Energy.consume_energy, viewStrip]
      exact fun h0 => absurd h0 hne
    · intro hE
      have hne : d = 0 → False := by
        intro h0
        rw [h0] at hE
        simp [hzero] at hE
      simp [one_direction_view, hd, hne, check_price_view, hE]
      exact hne
  | Right =>
    simp only [clippedDist] at hd
    refine ⟨?_, ?_, ?_⟩
    · intro h0
      simp [one_direction_view, hd, h0]
    · intro h1 hE
      have hne : d = 0 → False := by omega
      simp [one_direction_view, hd, hne, check_price_view, hE,
        Energy.consume_energy, viewStrip]
      exact fun h0 => absurd h0 hne
    · intro hE
      have hne : d = 0 → False := by
        intro h0
        rw [h0] at hE
        simp [hzero] at hE
      simp [one_direction_view, hd, hne, check_price_view, hE]
      exact hne

theorem one_direction_view_cost_strip_witness :
    (2 = 0 → one_direction_view c8robot c8world .Down 5 = (c8robot, .ok [])) ∧
    (1 ≤ 2 → c8robot.energy.has_enough_energy (if 2 ≤ 1 then 0 else 2 * 3) = true →
      one_direction_view c8robot c8world .Down 5 =
        (⟨⟨c8robot.energy.energy_level - (if 2 ≤ 1 then 0 else 2 * 3)⟩,
          c8robot.coordinate, c8robot.backpack⟩,
         .ok (viewStrip c8robot c8world .Down 2))) ∧
    (c8robot.energy.has_enough_energy (if 2 ≤ 1 then 0 else 2 * 3) = false →
      one_direction_view c8robot c8world .Down 5 =
        (c8robot, .error .NotEnoughEnergy)) :=
  one_direction_view_cost_strip c8robot c8world .Down 5 2 rfl

/-! ## Claim C9: dijkstra and reconstruct_shortest_path -/

/-! ### Arithmetic facts about the sentinel casts -/

theorem i32ToUsize_natCast (n : Nat) (h : n < 2 ^ 64) :
    i32ToUsize (n : Int) = n := by
  simp only [i32ToUsize]
  omega

theorem i32ToUsize_INFi : i32ToUsize INFi = INFn := by
  decide

theorem usizeToI32_small (n : Nat) (h : n < 2 ^ 31) :
    usizeToI32 n = (n : Int) := by
  simp only [usizeToI32]
  omega

/-! ### Termination of predecessor chains -/

theorem predTerm_upd (pred : Nat → Option Nat) (visited : Nat → Bool)
    (pv : ∀ a b, pred a = some b → visited b = true)
    (hterm : ∀ a, PredTerm pred a)
    (v x : Nat) (hv : visited v = true) (hx : visited x = false) :
    ∀ z, PredTerm (upd pred x (some v)) z := by
  have hvis : ∀ w, visited w = true → PredTerm pred w →
      PredTerm (upd pred x (some v)) w := by
    intro w hw hpw
    induction hpw with
    | base a ha =>
      have hax : a ≠ x := fun h => by rw [h, hx] at hw; cases hw
      exact PredTerm.base a (by simpa [upd, hax] using ha)
    | step a b hab hb ih =>
      have hax : a ≠ x := fun h => by rw [h, hx] at hw; cases hw
      exact PredTerm.step a b (by simpa [upd, hax] using hab) (ih (pv a b hab))
  have hxterm : PredTerm (upd pred x (some v)) x :=
    PredTerm.step x v (by simp [upd]) (hvis v hv (hterm v))
  intro z
  induction hterm z with
  | base a ha =>
    by_cases hax : a = x
    · exact hax ▸ hxterm
    · exact PredTerm.base a (by simpa [upd, hax] using ha)
  | step a b hab hb ih =>
    by_cases hax : a = x
    · exact hax ▸ hxterm
    · exact PredTerm.step a b (by simpa [upd, hax] using hab) ih

/-! ### `popMin` facts -/

theorem popMin_cons_none (x : DNode) (xs : List DNode)
    (hx : popMin xs = Option.none) : popMin (x :: xs) = some (x, []) := by
  simp only [popMin, hx]

theorem popMin_cons_le (x : DNode) (xs : List DNode) (m0 : DNode)
    (rest0 : List DNode) (hx : popMin xs = some (m0, rest0))
    (hc : x.distance ≤ m0.distance) : popMin (x :: xs) = some (x, xs) := by
  simp only [popMin, hx]
  rw [if_pos hc]

theorem popMin_cons_gt (x : DNode) (xs : List DNode) (m0 : DNode)
    (rest0 : List DNode) (hx : popMin xs = some (m0, rest0))
    (hc : ¬ x.distance ≤ m0.distance) :
    popMin (x :: xs) = some (m0, x :: rest0) := by
  simp only [popMin, hx]
  rw [if_neg hc]

theorem popMin_none (l : List DNode) (h : popMin l = Option.none) : l = [] := by
  cases l with
  | nil => rfl
  | cons x xs =>
    cases hx : popMin xs with
    | none =>
      rw [popMin_cons_none x xs hx] at h
      cases h
    | some p =>
      obtain ⟨m0, rest0⟩ := p
      by_cases hc : x.distance ≤ m0.distance
      · rw [popMin_cons_le x xs m0 rest0 hx hc] at h
        cases h
      · rw [popMin_cons_gt x xs m0 rest0 hx hc] at h
        cases h

theorem popMin_perm (l : List DNode) (m : DNode) (rest : List DNode)
    (h : popMin l = some (m, rest)) : l.Perm (m :: rest) := by
  induction l generalizing m rest with
  | nil => cases h
  | cons x xs ih =>
    cases hx : popMin xs with
    | none =>
      rw [popMin_cons_none x xs hx] at h
      rw [Option.some.injEq, Prod.mk.injEq] at h
      obtain ⟨rfl, rfl⟩ := h
      have hxs : xs = [] := popMin_none xs hx
      subst hxs
      exact List.Perm.refl _
    | some p =>
      obtain ⟨m0, rest0⟩ := p
      by_cases hc : x.distance ≤ m0.distance
      · rw [popMin_cons_le x xs m0 rest0 hx hc] at h
        rw [Option.some.injEq, Prod.mk.injEq] at h
        obtain ⟨rfl, rfl⟩ := h
        exact List.Perm.refl _
      · rw [popMin_cons_gt x xs m0 rest0 hx hc] at h
        rw [Option.some.injEq, Prod.mk.injEq] at h
        obtain ⟨rfl, rfl⟩ := h
        exact ((ih m0 rest0 hx).cons x).trans (List.Perm.swap m0 x rest0)

theorem popMin_min (l : List DNode) (m : DNode) (rest : List DNode)
    (h : popMin l = some (m, rest)) : ∀ e ∈ l, m.distance ≤ e.distance := by
  induction l generalizing m rest with
  | nil => cases h
  | cons x xs ih =>
    cases hx : popMin xs with
    | none =>
      rw [popMin_cons_none x xs hx] at h
      rw [Option.some.injEq, Prod.mk.injEq] at h
      obtain ⟨rfl, rfl⟩ := h
      have hxs : xs = [] := popMin_none xs hx
      subst hxs
      intro e he
      rcases List.mem_singleton.mp he with rfl
      exact Nat.le_refl _
    | some p =>
      obtain ⟨m0, rest0⟩ := p
      by_cases hc : x.distance ≤ m0.distance
      · rw [popMin_cons_le x xs m0 rest0 hx hc] at h
        rw [Option.some.injEq, Prod.mk.injEq] at h
        obtain ⟨rfl, rfl⟩ := h
        intro e he
        rcases List.mem_cons.mp he with rfl | he
        · exact Nat.le_refl _
        · exact Nat.le_trans hc (ih m0 rest0 hx e he)
      · rw [popMin_cons_gt x xs m0 rest0 hx hc] at h
        rw [Option.some.injEq, Prod.mk.injEq] at h
        obtain ⟨rfl, rfl⟩ := h
        intro e he
        rcases List.mem_cons.mp he with rfl | he
        · exact Nat.le_of_lt (Nat.lt_of_not_le hc)
        · exact ih m0 rest0 hx e he

/-! ### The loop invariant of `dijkstra` -/

/-- The heap only enters the invariant through membership. -/
theorem DInv.heap_congr {graph : List (List DNode)} {start exv : Nat}
    {todo : List DNode} {s : DState} {h1 h2 : List DNode}
    (hm : ∀ e, e ∈ h1 ↔ e ∈ h2)
    (inv : DInv graph start exv todo s h1) : DInv graph start exv todo s h2 where
  dist_start := inv.dist_start
  dist_sound := inv.dist_sound
  heap_idx := fun e he => inv.heap_idx e ((hm e).mpr he)
  heap_path := fun e he => inv.heap_path e ((hm e).mpr he)
  heap_le := fun e he => inv.heap_le e ((hm e).mpr he)
  live := fun v n hd hv => (hm _).mp (inv.live v n hd hv)
  visited_min := inv.visited_min
  visited_relaxed := inv.visited_relaxed
  pred_vis := inv.pred_vis
  pred_edge := inv.pred_edge
  pred_dist := inv.pred_dist
  pred_none_start := inv.pred_none_start
  dist_pred := inv.dist_pred
  pred_term := inv.pred_term

/-- With no exempt edges the invariant does not depend on `exv`. -/
theorem DInv.exv_change {graph : List (List DNode)} {start exv exv2 : Nat}
    {todo2 : List DNode} {s : DState} {heap : List DNode}
    (inv : DInv graph start exv [] s heap) : DInv graph start exv2 todo2 s heap where
  dist_start := inv.dist_start
  dist_sound := inv.dist_sound
  heap_idx := inv.heap_idx
  heap_path := inv.heap_path
  heap_le := inv.heap_le
  live := inv.live
  visited_min := inv.visited_min
  visited_relaxed := fun u du v w hu he _ hd =>
    inv.visited_relaxed u du v w hu he (fun _ => List.not_mem_nil _) hd
  pred_vis := inv.pred_vis
  pred_edge := inv.pred_edge
  pred_dist := inv.pred_dist
  pred_none_start := inv.pred_none_start
  dist_pred := inv.dist_pred
  pred_term := inv.pred_term

theorem relaxAll_spec (graph : List (List DNode)) (start : Nat)
    (hwf : ∀ u e, e ∈ graph.getD u [] → e.index < graph.length)
    (v dd : Nat) (hdd : dd < INFn) (hpathv : PathW graph start v dd) :
    ∀ (todo : List DNode) (s : DState) (heap : List DNode),
      s.visited v = true →
      s.dist v = some (dd : Int) →
      (∀ nb ∈ todo, DNode.mk nb.index nb.distance ∈ graph.getD v []) →
      (∀ nb ∈ todo, nb.distance < INFn) →
      DInv graph start v todo s heap →
      DInv graph start v [] (relaxAll dd v todo s).1
        (heap ++ (relaxAll dd v todo s).2) ∧
      (∀ x, (relaxAll dd v todo s).1.visited x = s.visited x) ∧
      (relaxAll dd v todo s).2.length ≤ todo.length := by
  have hINF : INFn = 2147483647 := rfl
  intro todo
  induction todo with
  | nil =>
    intro s heap _ _ _ _ inv
    refine ⟨DInv.heap_congr ?_ inv, fun x => rfl, Nat.le_refl _⟩
    intro e
    simp [relaxAll]
  | cons nb rest ih =>
    intro s heap hvisv hdv htodo hwlt inv
    have hmem : DNode.mk nb.index nb.distance ∈ graph.getD v [] :=
      htodo nb (List.mem_cons_self _ _)
    have hwnb : nb.distance < INFn := hwlt nb (List.mem_cons_self _ _)
    have hedge : EdgeG graph v nb.index nb.distance := hmem
    have hnowrap : (dd + nb.distance) % 2 ^ 64 = dd + nb.distance :=
      Nat.mod_eq_of_lt (by omega)
    by_cases hlt :
        (dd + nb.distance) % 2 ^ 64 < i32ToUsize ((s.dist nb.index).getD INFi)
    · -- strict improvement: the neighbour is updated and pushed
      have hneINF : dd + nb.distance < INFn := by
        rw [hnowrap] at hlt
        cases hdx : s.dist nb.index with
        | none =>
          rw [hdx] at hlt
          simp only [Option.getD_none, i32ToUsize_INFi] at hlt
          exact hlt
        | some dxx =>
          rw [hdx] at hlt
          obtain ⟨mx, rfl, hmxINF, _⟩ := inv.dist_sound nb.index dxx hdx
          rw [Option.getD_some, i32ToUsize_natCast mx (by omega)] at hlt
          omega
      have hres : relaxAll dd v (nb :: rest) s =
          ((relaxAll dd v rest
              ⟨upd s.dist nb.index (some ((dd + nb.distance : Nat) : Int)),
               upd s.pred nb.index (some v), s.visited⟩).1,
           DNode.mk nb.index (dd + nb.distance) ::
             (relaxAll dd v rest
               ⟨upd s.dist nb.index (some ((dd + nb.distance : Nat) : Int)),
                upd s.pred nb.index (some v), s.visited⟩).2) := by
        simp only [relaxAll]
        rw [if_pos hlt, hnowrap, usizeToI32_small (dd + nb.distance) (by omega)]
      have hx_unvis : s.visited nb.index = false := by
        by_contra hcon
        have hvt : s.visited nb.index = true := by
          cases hxx : s.visited nb.index
          · exact absurd hxx hcon
          · rfl
        obtain ⟨mv, hmv, hmin⟩ := inv.visited_min nb.index hvt
        have hle : mv ≤ dd + nb.distance :=
          hmin.2 (dd + nb.distance) (PathW.tail hpathv hedge)
        rw [hnowrap, hmv, Option.getD_some,
          i32ToUsize_natCast mv (by omega)] at hlt
        omega
      have hx_ne_v : nb.index ≠ v := by
        intro h
        rw [h, hvisv] at hx_unvis
        cases hx_unvis
      have hx_ne_start : nb.index ≠ start := by
        intro h
        rw [hnowrap, h, inv.dist_start, Option.getD_some] at hlt
        have h0 : i32ToUsize 0 = 0 := by simp [i32ToUsize]
        rw [h0] at hlt
        omega
      have hpathnew : PathW graph start nb.index (dd + nb.distance) :=
        PathW.tail hpathv hedge
      have hdist1 : ∀ y,
          (⟨upd s.dist nb.index (some ((dd + nb.distance : Nat) : Int)),
            upd s.pred nb.index (some v), s.visited⟩ : DState).dist y =
          if y = nb.index then some ((dd + nb.distance : Nat) : Int)
          else s.dist y := fun y => rfl
      have hpred1 : ∀ y,
          (⟨upd s.dist nb.index (some ((dd + nb.distance : Nat) : Int)),
            upd s.pred nb.index (some v), s.visited⟩ : DState).pred y =
          if y = nb.index then some v else s.pred y := fun y => rfl
      -- the stored distance strictly below every stale bound for this index
      have hbelow : ∀ n0 : Nat, s.dist nb.index = some (n0 : Int) →
          dd + nb.distance < n0 := by
        intro n0 hn0
        have hb : n0 < 2 ^ 64 := by
          obtain ⟨mx, hmx, hmxINF, _⟩ := inv.dist_sound nb.index _ hn0
          have heq : n0 = mx := by exact_mod_cast hmx
          omega
        rw [hnowrap, hn0, Option.getD_some, i32ToUsize_natCast n0 hb] at hlt
        exact hlt
      have inv1 : DInv graph start v rest
          ⟨upd s.dist nb.index (some ((dd + nb.distance : Nat) : Int)),
           upd s.pred nb.index (some v), s.visited⟩
          (heap ++ [DNode.mk nb.index (dd + nb.distance)]) := by
        constructor
        case dist_start =>
          rw [hdist1, if_neg (Ne.symm hx_ne_start)]
          exact inv.dist_start
        case dist_sound =>
          intro y d hy
          rw [hdist1] at hy
          by_cases hyx : y = nb.index
          · rw [if_pos hyx] at hy
            have hd : d = ((dd + nb.distance : Nat) : Int) :=
              (Option.some.inj hy).symm
            exact ⟨dd + nb.distance, hd, hneINF, by rw [hyx]; exact hpathnew⟩
          · rw [if_neg hyx] at hy
            exact inv.dist_sound y d hy
        case heap_idx =>
          intro e he
          rcases List.mem_append.mp he with he | he
          · exact inv.heap_idx e he
          · rcases List.mem_singleton.mp he with rfl
            have h2 : nb.index < graph.length := hwf v ⟨nb.index, nb.distance⟩ hmem
            exact h2
        case heap_path =>
          intro e he
          rcases List.mem_append.mp he with he | he
          · exact inv.heap_path e he
          · rcases List.mem_singleton.mp he with rfl
            exact ⟨hpathnew, hneINF⟩
        case heap_le =>
          intro e he
          rcases List.mem_append.mp he with he | he
          · obtain ⟨n0, hn0, hle⟩ := inv.heap_le e he
            by_cases hex : e.index = nb.index
            · refine ⟨dd + nb.distance, ?_, ?_⟩
              · rw [hdist1, if_pos hex]
              · have hn0x : s.dist nb.index = some (n0 : Int) := by
                  rw [← hex]
                  exact hn0
                have := hbelow n0 hn0x
                omega
            · exact ⟨n0, by rw [hdist1, if_neg hex]; exact hn0, hle⟩
          · rcases List.mem_singleton.mp he with rfl
            exact ⟨dd + nb.distance, by rw [hdist1, if_pos rfl], Nat.le_refl _⟩
        case live =>
          intro y n hy hvy
          rw [hdist1] at hy
          by_cases hyx : y = nb.index
          · rw [if_pos hyx] at hy
            have hn : n = dd + nb.distance := by
              have h2 := Option.some.inj hy
              exact_mod_cast h2.symm
            subst hyx
            rw [hn]
            exact List.mem_append_right _ (List.mem_singleton.mpr rfl)
          · rw [if_neg hyx] at hy
            exact List.mem_append_left _ (inv.live y n hy hvy)
        case visited_min =>
          intro y hy
          have hyx : y ≠ nb.index := by
            intro h
            rw [h, hx_unvis] at hy
            cases hy
          obtain ⟨n, hn, hmin⟩ := inv.visited_min y hy
          exact ⟨n, by rw [hdist1, if_neg hyx]; exact hn, hmin⟩
        case visited_relaxed =>
          intro u du y w hu hey hguard hdu
          have hux : u ≠ nb.index := by
            intro h
            rw [h, hx_unvis] at hu
            cases hu
          rw [hdist1, if_neg hux] at hdu
          have step : (∃ n : Nat, s.dist y = some (n : Int) ∧ n ≤ du + w) ∨
              INFn ≤ du + w →
              (∃ n : Nat,
                (⟨upd s.dist nb.index (some ((dd + nb.distance : Nat) : Int)),
                  upd s.pred nb.index (some v), s.visited⟩ : DState).dist y =
                  some (n : Int) ∧ n ≤ du + w) ∨
              INFn ≤ du + w := by
            intro hdis
            rcases hdis with ⟨n, hn, hle⟩ | hinf
            · by_cases hyx : y = nb.index
              · refine Or.inl ⟨dd + nb.distance, ?_, ?_⟩
                · rw [hdist1, if_pos hyx]
                · have hnx : s.dist nb.index = some (n : Int) := by
                    rw [← hyx]
                    exact hn
                  have := hbelow n hnx
                  omega
              · exact Or.inl ⟨n, by rw [hdist1, if_neg hyx]; exact hn, hle⟩
            · exact Or.inr hinf
          by_cases huv : u = v
          · subst huv
            have hdu_dd : du = dd := by
              rw [hdv] at hdu
              exact_mod_cast (Option.some.inj hdu).symm
            by_cases hnod : DNode.mk y w = DNode.mk nb.index nb.distance
            · injection hnod with h1 h2
              subst h1
              subst h2
              refine Or.inl ⟨dd + nb.distance, ?_, ?_⟩
              · rw [hdist1, if_pos rfl]
              · omega
            · have hnin : DNode.mk y w ∉ nb :: rest := by
                intro hmem2
                rcases List.mem_cons.mp hmem2 with h | h
                · exact hnod (by rw [h])
                · exact hguard rfl h
              exact step (inv.visited_relaxed u du y w hu hey (fun _ => hnin) hdu)
          · exact step (inv.visited_relaxed u du y w hu hey
              (fun h => absurd h huv) hdu)
        case pred_vis =>
          intro y u hy
          rw [hpred1] at hy
          by_cases hyx : y = nb.index
          · rw [if_pos hyx] at hy
            rcases Option.some.inj hy with rfl
            exact hvisv
          · rw [if_neg hyx] at hy
            exact inv.pred_vis y u hy
        case pred_edge =>
          intro y u hy
          rw [hpred1] at hy
          by_cases hyx : y = nb.index
          · rw [if_pos hyx] at hy
            rcases Option.some.inj hy with rfl
            exact ⟨nb.distance, by rw [hyx]; exact hedge⟩
          · rw [if_neg hyx] at hy
            exact inv.pred_edge y u hy
        case pred_dist =>
          intro y u hy
          by_cases hyx : y = nb.index
          · exact ⟨_, by rw [hdist1, if_pos hyx]⟩
          · rw [hpred1, if_neg hyx] at hy
            obtain ⟨d, hd⟩ := inv.pred_dist y u hy
            exact ⟨d, by rw [hdist1, if_neg hyx]; exact hd⟩
        case pred_none_start =>
          rw [hpred1, if_neg (Ne.symm hx_ne_start)]
          exact inv.pred_none_start
        case dist_pred =>
          intro y hy d hd
          by_cases hyx : y = nb.index
          · exact ⟨v, by rw [hpred1, if_pos hyx]⟩
          · rw [hdist1, if_neg hyx] at hd
            obtain ⟨u, hu⟩ := inv.dist_pred y hy d hd
            exact ⟨u, by rw [hpred1, if_neg hyx]; exact hu⟩
        case pred_term =>
          exact predTerm_upd s.pred s.visited inv.pred_vis inv.pred_term
            v nb.index hvisv hx_unvis
      obtain ⟨ihinv, ihvis, ihlen⟩ := ih
        ⟨upd s.dist nb.index (some ((dd + nb.distance : Nat) : Int)),
         upd s.pred nb.index (some v), s.visited⟩
        (heap ++ [DNode.mk nb.index (dd + nb.distance)])
        hvisv
        (by rw [hdist1, if_neg (Ne.symm hx_ne_v)]; exact hdv)
        (fun nb2 h2 => htodo nb2 (List.mem_cons_of_mem _ h2))
        (fun nb2 h2 => hwlt nb2 (List.mem_cons_of_mem _ h2))
        inv1
      rw [hres]
      refine ⟨?_, ?_, ?_⟩
      · refine DInv.heap_congr ?_ ihinv
        intro e
        simp only [List.mem_append, List.mem_cons, List.mem_singleton]
        tauto
      · intro x
        exact ihvis x
      · simp only [List.length_cons]
        omega
    · -- no improvement: the state is unchanged
      have hres : relaxAll dd v (nb :: rest) s = relaxAll dd v rest s := by
        simp only [relaxAll]
        rw [if_neg hlt]
      have inv2 : DInv graph start v rest s heap := by
        constructor
        case dist_start => exact inv.dist_start
        case dist_sound => exact inv.dist_sound
        case heap_idx => exact inv.heap_idx
        case heap_path => exact inv.heap_path
        case heap_le => exact inv.heap_le
        case live => exact inv.live
        case visited_min => exact inv.visited_min
        case visited_relaxed =>
          intro u du y w hu hey hguard hdu
          by_cases huv : u = v
          · subst huv
            have hdu_dd : du = dd := by
              rw [hdv] at hdu
              exact_mod_cast (Option.some.inj hdu).symm
            by_cases hnod : DNode.mk y w = DNode.mk nb.index nb.distance
            · injection hnod with h1 h2
              subst h1
              subst h2
              rw [hnowrap] at hlt
              cases hdx : s.dist nb.index with
              | none =>
                rw [hdx] at hlt
                simp only [Option.getD_none, i32ToUsize_INFi] at hlt
                exact Or.inr (by omega)
              | some dxx =>
                rw [hdx] at hlt
                obtain ⟨mx, rfl, hmxINF, _⟩ := inv.dist_sound nb.index dxx hdx
                rw [Option.getD_some, i32ToUsize_natCast mx (by omega)] at hlt
                exact Or.inl ⟨mx, rfl, by omega⟩
            · have hnin : DNode.mk y w ∉ nb :: rest := by
                intro hmem2
                rcases List.mem_cons.mp hmem2 with h | h
                · exact hnod (by rw [h])
                · exact hguard rfl h
              exact inv.visited_relaxed u du y w hu hey (fun _ => hnin) hdu
          · exact inv.visited_relaxed u du y w hu hey (fun h => absurd h huv) hdu
        case pred_vis => exact inv.pred_vis
        case pred_edge => exact inv.pred_edge
        case pred_dist => exact inv.pred_dist
        case pred_none_start => exact inv.pred_none_start
        case dist_pred => exact inv.dist_pred
        case pred_term => exact inv.pred_term
      obtain ⟨ihinv, ihvis, ihlen⟩ := ih s heap hvisv hdv
        (fun nb2 h2 => htodo nb2 (List.mem_cons_of_mem _ h2))
        (fun nb2 h2 => hwlt nb2 (List.mem_cons_of_mem _ h2))
        inv2
      rw [hres]
      exact ⟨ihinv, ihvis, Nat.le_trans ihlen (Nat.le_succ _)⟩

/-! ### Counting unvisited labels (the loop measure) -/

theorem countP_eq_of_agree (l : List Nat) (p q : Nat → Bool)
    (h : ∀ x ∈ l, q x = p x) : l.countP q = l.countP p := by
  induction l with
  | nil => rfl
  | cons a as ih =>
    rw [List.countP_cons, List.countP_cons, h a (List.mem_cons_self _ _),
      ih (fun x hx => h x (List.mem_cons_of_mem _ hx))]

theorem countP_drop (l : List Nat) (p q : Nat → Bool) (v : Nat)
    (hnd : l.Nodup) (hv : v ∈ l) (hpv : p v = true) (hqv : q v = false)
    (hagree : ∀ x, x ≠ v → q x = p x) :
    l.countP q + 1 = l.countP p := by
  induction l with
  | nil => cases hv
  | cons a as ih =>
    obtain ⟨hnotin, hnd2⟩ := List.nodup_cons.mp hnd
    rw [List.countP_cons, List.countP_cons]
    rcases List.mem_cons.mp hv with rfl | hv2
    · rw [hpv, hqv]
      have hagree2 : ∀ x ∈ as, q x = p x := by
        intro x hx
        refine hagree x ?_
        intro hxy
        exact hnotin (hxy ▸ hx)
      rw [countP_eq_of_agree as p q hagree2]
      simp
    · have hav : a ≠ v := by
        intro h
        exact hnotin (h ▸ hv2)
      rw [hagree a hav]
      have h2 := ih hnd2 hv2
      by_cases hpa : p a = true
      · rw [if_pos hpa]
        omega
      · rw [if_neg hpa]
        omega

theorem unvisCount_upd (graph : List (List DNode)) (s s1 : DState) (v : Nat)
    (hv : v < graph.length) (hunvis : s.visited v = false)
    (h1 : ∀ x, s1.visited x = upd s.visited v true x) :
    unvisCount graph s1 + 1 = unvisCount graph s := by
  refine countP_drop _ _ _ v (List.nodup_range _) (List.mem_range.mpr hv) ?_ ?_ ?_
  · rw [hunvis]
    rfl
  · rw [h1]
    simp [upd]
  · intro x hxv
    rw [h1]
    simp [upd, hxv]

theorem getD_length_le (graph : List (List DNode)) (v : Nat)
    (hv : v < graph.length) :
    (graph.getD v []).length ≤ edgeCount graph := by
  have hmem : graph.getD v [] ∈ graph := by
    rw [List.getD_eq_getElem graph [] hv]
    exact List.getElem_mem hv
  have hmem2 : (graph.getD v []).length ∈ graph.map List.length :=
    List.mem_map_of_mem _ hmem
  exact List.single_le_sum (fun b _ => Nat.zero_le b) _ hmem2

/-! ### The cut argument: any path cost bounds some stored unvisited label -/

theorem dinv_cut (graph : List (List DNode)) (start : Nat) {exv : Nat}
    {s : DState} {heap : List DNode}
    (inv : DInv graph start exv [] s heap) :
    ∀ v c, PathW graph start v c → s.visited v = false →
      (∃ x n, s.visited x = false ∧ s.dist x = some ((n : Nat) : Int) ∧ n ≤ c) ∨
      INFn ≤ c := by
  intro v c hp
  induction hp with
  | refl =>
    intro hv
    exact Or.inl ⟨start, 0, hv, by simpa using inv.dist_start, Nat.le_refl _⟩
  | @tail u c1 v1 w p e ih =>
    intro hv
    by_cases hu : s.visited u = true
    · obtain ⟨du, hdu, hmindu⟩ := inv.visited_min u hu
      have hduc : du ≤ c1 := hmindu.2 c1 p
      rcases inv.visited_relaxed u du v1 w hu e (fun _ => List.not_mem_nil _) hdu
        with ⟨n, hn, hle⟩ | hinf
      · exact Or.inl ⟨v1, n, hv, hn, by omega⟩
      · exact Or.inr (by omega)
    · have hu2 : s.visited u = false := by
        cases hx : s.visited u
        · rfl
        · exact absurd hx hu
      rcases ih hu2 with ⟨x, n, h1, h2, h3⟩ | hinf
      · exact Or.inl ⟨x, n, h1, h2, by omega⟩
      · exact Or.inr (by omega)

/-! ### The main loop preserves the invariant and drains the heap -/

theorem dijkstraLoop_inv (graph : List (List DNode)) (start : Nat)
    (hwf : ∀ u e, e ∈ graph.getD u [] → e.index < graph.length)
    (hwlt : ∀ u e, e ∈ graph.getD u [] → e.distance < INFn) :
    ∀ (fuel : Nat) (s : DState) (heap : List DNode),
      DInv graph start 0 [] s heap →
      unvisCount graph s * (edgeCount graph + 1) + heap.length ≤ fuel →
      DInv graph start 0 [] (dijkstraLoop graph fuel s heap) [] := by
  intro fuel
  induction fuel with
  | zero =>
    intro s heap inv hM
    have hheap : heap = [] := by
      cases heap with
      | nil => rfl
      | cons a as => simp at hM
    subst hheap
    simpa only [dijkstraLoop] using inv
  | succ fuel ih =>
    intro s heap inv hM
    cases hpop : popMin heap with
    | none =>
      have hheap : heap = [] := popMin_none heap hpop
      subst hheap
      simpa only [dijkstraLoop, hpop] using inv
    | some pr =>
      obtain ⟨nd, rest⟩ := pr
      have hperm := popMin_perm heap nd rest hpop
      have hmem_nd : nd ∈ heap := hperm.mem_iff.mpr (List.mem_cons_self _ _)
      have hlen : heap.length = rest.length + 1 := by
        have h := hperm.length_eq
        simpa using h
      have hmin_nd := popMin_min heap nd rest hpop
      have hrest_sub : ∀ e ∈ rest, e ∈ heap := fun e he =>
        hperm.mem_iff.mpr (List.mem_cons_of_mem _ he)
      have hidx_nd : nd.index < graph.length := inv.heap_idx nd hmem_nd
      by_cases hvis : s.visited nd.index = true
      · -- stale heap entry: skip it
        have inv2 : DInv graph start 0 [] s rest := by
          constructor
          case dist_start => exact inv.dist_start
          case dist_sound => exact inv.dist_sound
          case heap_idx => exact fun e he => inv.heap_idx e (hrest_sub e he)
          case heap_path => exact fun e he => inv.heap_path e (hrest_sub e he)
          case heap_le => exact fun e he => inv.heap_le e (hrest_sub e he)
          case live =>
            intro x n hx hvx
            have hin := inv.live x n hx hvx
            rcases List.mem_cons.mp (hperm.mem_iff.mp hin) with h | h
            · exfalso
              have hxx : s.visited x = true := by
                rw [← h] at hvis
                exact hvis
              rw [hvx] at hxx
              cases hxx
            · exact h
          case visited_min => exact inv.visited_min
          case visited_relaxed => exact inv.visited_relaxed
          case pred_vis => exact inv.pred_vis
          case pred_edge => exact inv.pred_edge
          case pred_dist => exact inv.pred_dist
          case pred_none_start => exact inv.pred_none_start
          case dist_pred => exact inv.dist_pred
          case pred_term => exact inv.pred_term
        have hM2 : unvisCount graph s * (edgeCount graph + 1) + rest.length ≤
            fuel := by omega
        simp only [dijkstraLoop, hpop, hvis, if_pos]
        exact ih s rest inv2 hM2
      · -- settle a new node
        have hunvis : s.visited nd.index = false := by
          cases hx : s.visited nd.index
          · rfl
          · exact absurd hx hvis
        obtain ⟨nsd, hnsd, hnsd_le⟩ := inv.heap_le nd hmem_nd
        have hlive := inv.live nd.index nsd hnsd hunvis
        have h1 : nd.distance ≤ nsd := hmin_nd _ hlive
        have hstored : nsd = nd.distance := Nat.le_antisymm hnsd_le h1
        subst hstored
        obtain ⟨hpath_nd, hnd_INF⟩ := inv.heap_path nd hmem_nd
        have hmin_v : ∀ c, PathW graph start nd.index c → nd.distance ≤ c := by
          intro c hc
          rcases dinv_cut graph start inv nd.index c hc hunvis with
            ⟨x, n, hxv, hxd, hnc⟩ | hinf
          · have hex : DNode.mk x n ∈ heap := inv.live x n hxd hxv
            have h2 : nd.distance ≤ n := hmin_nd _ hex
            omega
          · omega
        have hvis1 :
            (⟨s.dist, s.pred, upd s.visited nd.index true⟩ : DState).visited
              nd.index = true := by
          simp [upd]
        have inv_s1 : DInv graph start nd.index (graph.getD nd.index [])
            ⟨s.dist, s.pred, upd s.visited nd.index true⟩ rest := by
          constructor
          case dist_start => exact inv.dist_start
          case dist_sound => exact inv.dist_sound
          case heap_idx => exact fun e he => inv.heap_idx e (hrest_sub e he)
          case heap_path => exact fun e he => inv.heap_path e (hrest_sub e he)
          case heap_le => exact fun e he => inv.heap_le e (hrest_sub e he)
          case live =>
            intro x n hx hvx
            simp only [upd] at hvx
            by_cases hxnd : x = nd.index
            · rw [if_pos hxnd] at hvx
              cases hvx
            · rw [if_neg hxnd] at hvx
              have hin := inv.live x n hx hvx
              rcases List.mem_cons.mp (hperm.mem_iff.mp hin) with h | h
              · exfalso
                have hx2 : nd.index = x := by
                  rw [← h]
                exact hxnd hx2.symm
              · exact h
          case visited_min =>
            intro y hy
            simp only [upd] at hy
            by_cases hynd : y = nd.index
            · subst hynd
              exact ⟨nd.distance, hnsd, hpath_nd, hmin_v⟩
            · rw [if_neg hynd] at hy
              exact inv.visited_min y hy
          case visited_relaxed =>
            intro u du y w hu hey hguard hdu
            by_cases hund : u = nd.index
            · rw [hund] at hey
              exact absurd hey (hguard hund)
            · simp only [upd, if_neg hund] at hu
              exact inv.visited_relaxed u du y w hu hey
                (fun _ => List.not_mem_nil _) hdu
          case pred_vis =>
            intro y u hy
            have h2 := inv.pred_vis y u hy
            simp only [upd]
            by_cases hund : u = nd.index
            · rw [if_pos hund]
            · rw [if_neg hund]
              exact h2
          case pred_edge => exact inv.pred_edge
          case pred_dist => exact inv.pred_dist
          case pred_none_start => exact inv.pred_none_start
          case dist_pred => exact inv.dist_pred
          case pred_term => exact inv.pred_term
        obtain ⟨rinv, rvis, rlen⟩ := relaxAll_spec graph start hwf nd.index
          nd.distance hnd_INF hpath_nd (graph.getD nd.index [])
          ⟨s.dist, s.pred, upd s.visited nd.index true⟩ rest hvis1 hnsd
          (fun nb h => h) (fun nb h => hwlt nd.index nb h) inv_s1
        have hcount1 : unvisCount graph
            (relaxAll nd.distance nd.index (graph.getD nd.index [])
              ⟨s.dist, s.pred, upd s.visited nd.index true⟩).1 =
            unvisCount graph ⟨s.dist, s.pred, upd s.visited nd.index true⟩ :=
          countP_eq_of_agree _ _ _ (fun x _ => by rw [rvis x])
        have hcount2 : unvisCount graph
            ⟨s.dist, s.pred, upd s.visited nd.index true⟩ + 1 =
            unvisCount graph s :=
          unvisCount_upd graph s _ nd.index hidx_nd hunvis (fun x => rfl)
        have hEC : (graph.getD nd.index []).length ≤ edgeCount graph :=
          getD_length_le graph nd.index hidx_nd
        have hU1 : 1 ≤ unvisCount graph s := by
          have h2 : 0 < (List.range graph.length).countP
              fun x => ! s.visited x := by
            refine List.countP_pos.mpr ⟨nd.index, List.mem_range.mpr hidx_nd, ?_⟩
            rw [hunvis]
            rfl
          exact h2
        have hsub : (unvisCount graph s - 1) * (edgeCount graph + 1) =
            unvisCount graph s * (edgeCount graph + 1) - (edgeCount graph + 1) := by
          rw [Nat.sub_mul, Nat.one_mul]
        have hXE : edgeCount graph + 1 ≤
            unvisCount graph s * (edgeCount graph + 1) :=
          Nat.le_mul_of_pos_left _ hU1
        have hM2 : unvisCount graph
            (relaxAll nd.distance nd.index (graph.getD nd.index [])
              ⟨s.dist, s.pred, upd s.visited nd.index true⟩).1 *
            (edgeCount graph + 1) +
            (rest ++ (relaxAll nd.distance nd.index (graph.getD nd.index [])
              ⟨s.dist, s.pred, upd s.visited nd.index true⟩).2).length ≤
            fuel := by
          rw [hcount1, List.length_append]
          have hc3 : unvisCount graph
              ⟨s.dist, s.pred, upd s.visited nd.index true⟩ =
              unvisCount graph s - 1 := by omega
          rw [hc3, hsub]
          omega
        simp only [dijkstraLoop, hpop, hunvis, Bool.false_eq_true, if_neg,
          not_false_eq_true]
        exact ih _ _ (rinv.exv_change) hM2

theorem dijkstra_dinv (graph : List (List DNode)) (start : Nat)
    (hstart : start < graph.length)
    (hwf : ∀ u e, e ∈ graph.getD u [] → e.index < graph.length)
    (hwlt : ∀ u e, e ∈ graph.getD u [] → e.distance < INFn) :
    ∃ sf : DState, dijkstra graph start = (sf.dist, sf.pred) ∧
      DInv graph start 0 [] sf [] := by
  have inv0 : DInv graph start 0 []
      ⟨upd (fun _ => Option.none) start (some 0), fun _ => Option.none,
       fun _ => false⟩ [⟨start, 0⟩] := by
    constructor
    case dist_start => simp [upd]
    case dist_sound =>
      intro v d hv
      simp only [upd] at hv
      by_cases hvs : v = start
      · rw [if_pos hvs] at hv
        refine ⟨0, ?_, ?_, ?_⟩
        · simpa using (Option.some.inj hv).symm
        · decide
        · rw [hvs]
          exact PathW.refl
      · rw [if_neg hvs] at hv
        cases hv
    case heap_idx =>
      intro e he
      rcases List.mem_singleton.mp he with rfl
      exact hstart
    case heap_path =>
      intro e he
      rcases List.mem_singleton.mp he with rfl
      refine ⟨PathW.refl, ?_⟩
      show (0 : Nat) < INFn
      decide
    case heap_le =>
      intro e he
      rcases List.mem_singleton.mp he with rfl
      exact ⟨0, by simp [upd], Nat.le_refl _⟩
    case live =>
      intro v n hv _
      simp only [upd] at hv
      by_cases hvs : v = start
      · rw [if_pos hvs] at hv
        have hn : n = 0 := by exact_mod_cast (Option.some.inj hv).symm
        subst hvs
        rw [hn]
        exact List.mem_singleton.mpr rfl
      · rw [if_neg hvs] at hv
        cases hv
    case visited_min =>
      intro v hv
      cases hv
    case visited_relaxed =>
      intro u du v w hu _ _ _
      cases hu
    case pred_vis =>
      intro v u hv
      cases hv
    case pred_edge =>
      intro v u hv
      cases hv
    case pred_dist =>
      intro v u hv
      cases hv
    case pred_none_start => rfl
    case dist_pred =>
      intro v hv d hd
      simp only [upd] at hd
      rw [if_neg hv] at hd
      cases hd
    case pred_term =>
      intro v
      exact PredTerm.base v rfl
  have hU0 : unvisCount graph
      ⟨upd (fun _ => Option.none) start (some 0), fun _ => Option.none,
       fun _ => false⟩ ≤ graph.length := by
    have h2 := List.countP_le_length
      (l := List.range graph.length) (p := fun x => (true : Bool))
    calc unvisCount graph _ ≤ (List.range graph.length).length :=
          List.countP_le_length _
      _ = graph.length := List.length_range _
  have hM0 : unvisCount graph
      ⟨upd (fun _ => Option.none) start (some 0), fun _ => Option.none,
       fun _ => false⟩ * (edgeCount graph + 1) +
      ([(⟨start, 0⟩ : DNode)]).length ≤
      graph.length * (edgeCount graph + 1) + 1 := by
    have h2 : unvisCount graph
        ⟨upd (fun _ => Option.none) start (some 0), fun _ => Option.none,
         fun _ => false⟩ * (edgeCount graph + 1) ≤
        graph.length * (edgeCount graph + 1) :=
      Nat.mul_le_mul_right _ hU0
    simpa using h2
  refine ⟨dijkstraLoop graph (graph.length * (edgeCount graph + 1) + 1)
      ⟨upd (fun _ => Option.none) start (some 0), fun _ => Option.none,
       fun _ => false⟩ [⟨start, 0⟩], rfl, ?_⟩
  exact dijkstraLoop_inv graph start hwf hwlt _ _ _ inv0 hM0

/-! ### The predecessor walk of `reconstruct_shortest_path` -/

theorem walkPred_none (pred : Nat → Option Nat) (z : Nat)
    (hz : pred z = Option.none) :
    ∀ fuel path, walkPred pred fuel z path = path ++ [z] := by
  intro fuel path
  cases fuel with
  | zero => simp [walkPred]
  | succ f => simp [walkPred, hz]

theorem walkPred_chain (pred : Nat → Option Nat) (z : Nat)
    (ht : PredTerm pred z) :
    ∃ C : List Nat, C.head? = some z ∧
      (∃ t, C.getLast? = some t ∧ pred t = Option.none) ∧
      List.Chain' (fun a b => pred a = some b) C ∧
      ∃ f₀, ∀ fuel, f₀ ≤ fuel → ∀ path, walkPred pred fuel z path = path ++ C := by
  induction ht with
  | base v hv =>
    refine ⟨[v], rfl, ⟨v, rfl, hv⟩, List.chain'_singleton v, 0, ?_⟩
    intro fuel _ path
    exact walkPred_none pred v hv fuel path
  | step v u hvu hu ih =>
    obtain ⟨C, hhead, ⟨t, hlast, hpt⟩, hchain, f₀, hwalk⟩ := ih
    have hCne : C ≠ [] := by
      intro h
      rw [h] at hhead
      cases hhead
    obtain ⟨c0, C0, rfl⟩ := List.exists_cons_of_ne_nil hCne
    have hc0 : c0 = u := by
      have h2 : some c0 = some u := hhead
      exact Option.some.inj h2
    subst hc0
    refine ⟨v :: c0 :: C0, rfl, ⟨t, ?_, hpt⟩, ?_, f₀ + 1, ?_⟩
    · rw [List.getLast?_cons_cons]
      exact hlast
    · rw [List.chain'_cons]
      exact ⟨hvu, hchain⟩
    · intro fuel hf path
      cases fuel with
      | zero => omega
      | succ f =>
        have hf2 : f₀ ≤ f := by omega
        simp only [walkPred, hvu]
        rw [hwalk f hf2 (path ++ [v])]
        simp

theorem chain_pred_last (pred : Nat → Option Nat) :
    ∀ (C : List Nat) (a t : Nat),
      List.Chain' (fun a b => pred a = some b) (a :: C) →
      (a :: C).getLast? = some t → C ≠ [] → ∃ b, pred b = some t := by
  intro C
  induction C with
  | nil =>
    intro a t _ _ hne
    exact absurd rfl hne
  | cons c0 C0 ih =>
    intro a t hchain hlast _
    rw [List.chain'_cons] at hchain
    obtain ⟨hac, hchain2⟩ := hchain
    by_cases hC0 : C0 = []
    · subst hC0
      rw [List.getLast?_cons_cons] at hlast
      have hct : c0 = t := by simpa using hlast
      exact ⟨a, by rw [← hct]; exact hac⟩
    · rw [List.getLast?_cons_cons] at hlast
      exact ih c0 t hchain2 hlast hC0

theorem reconstruct_none_of_pred_none (pred : Nat → Option Nat) (target : Nat)
    (hp : pred target = Option.none) (fuel : Nat) :
    reconstruct_shortest_path pred fuel target = Option.none := by
  simp only [reconstruct_shortest_path]
  rw [walkPred_none pred target hp fuel []]
  simp

/-! ### Claim C9 -/

/-- C9 (amended).  Under the well-formedness side conditions of the
grid-to-graph conversion — in-range adjacency labels and every edge
weight below the `i32::MAX` sentinel — `dijkstra` stores distance `0` at
the start, stores a distance only for reachable nodes, and computes the
minimal total edge weight for every node that has a walk of weight
below the sentinel; `reconstruct_shortest_path` yields `none` for every
unreachable target, and for a reachable target (distinct from the
start, with a below-sentinel walk) it yields, for every sufficient
fuel, a path running from the start to the target along graph edges.
(The original claim fails without the sentinel bound: see the
counterexample.) -/
theorem dijkstra_reconstruct_amended (graph : List (List DNode)) (start : Nat)
    (hstart : start < graph.length)
    (hwf : ∀ u e, e ∈ graph.getD u [] → e.index < graph.length)
    (hwlt : ∀ u e, e ∈ graph.getD u [] → e.distance < INFn) :
    (dijkstra graph start).1 start = some 0 ∧
    (∀ v d, (dijkstra graph start).1 v = some d → ReachG graph start v) ∧
    (∀ v c, PathW graph start v c → c < INFn →
      ∃ n : Nat, (dijkstra graph start).1 v = some ((n : Nat) : Int) ∧
        IsMinDist graph start v n) ∧
    (∀ target, ¬ ReachG graph start target →
      ∀ fuel, reconstruct_shortest_path (dijkstra graph start).2 fuel target =
        Option.none) ∧
    (∀ target c, target ≠ start → PathW graph start target c → c < INFn →
      ∃ f p, p.head? = some start ∧ p.getLast? = some target ∧
        List.Chain' (fun a b => ∃ w, EdgeG graph a b w) p ∧
        ∀ fuel, f ≤ fuel →
          reconstruct_shortest_path (dijkstra graph start).2 fuel target =
            some p) := by
  obtain ⟨sf, heq, inv⟩ := dijkstra_dinv graph start hstart hwf hwlt
  rw [heq]
  have hmin : ∀ v c, PathW graph start v c → c < INFn →
      ∃ n : Nat, sf.dist v = some ((n : Nat) : Int) ∧ IsMinDist graph start v n := by
    intro v c hp hc
    by_cases hv : sf.visited v = true
    · exact inv.visited_min v hv
    · have hv2 : sf.visited v = false := by
        cases hx : sf.visited v
        · rfl
        · exact absurd hx hv
      rcases dinv_cut graph start inv v c hp hv2 with ⟨x, n, hxv, hxd, _⟩ | hinf
      · exact absurd (inv.live x n hxd hxv) (List.not_mem_nil _)
      · omega
  refine ⟨inv.dist_start, ?_, hmin, ?_, ?_⟩
  · intro v d hd
    obtain ⟨n, _, _, hpath⟩ := inv.dist_sound v d hd
    exact ⟨n, hpath⟩
  · intro target hnr fuel
    have hdn : sf.dist target = Option.none := by
      cases hdx : sf.dist target with
      | none => rfl
      | some d =>
        obtain ⟨n, _, _, hpath⟩ := inv.dist_sound target d hdx
        exact absurd ⟨n, hpath⟩ hnr
    have hpn : sf.pred target = Option.none := by
      cases hpx : sf.pred target with
      | none => rfl
      | some u =>
        obtain ⟨d, hd⟩ := inv.pred_dist target u hpx
        rw [hdn] at hd
        cases hd
    exact reconstruct_none_of_pred_none sf.pred target hpn fuel
  · intro target c htne hp hc
    obtain ⟨n, hdist, hmind⟩ := hmin target c hp hc
    obtain ⟨u0, hpred⟩ := inv.dist_pred target htne _ hdist
    obtain ⟨C, hhead, ⟨t, hlast, hpt⟩, hchain, f₀, hwalk⟩ :=
      walkPred_chain sf.pred target (inv.pred_term target)
    have hCne : C ≠ [] := by
      intro h
      rw [h] at hhead
      cases hhead
    obtain ⟨ch, C1, rfl⟩ := List.exists_cons_of_ne_nil hCne
    have hch : ch = target := by
      have h2 : some ch = some target := hhead
      exact Option.some.inj h2
    subst hch
    have hC1ne : C1 ≠ [] := by
      intro h
      subst h
      have ht2 : ch = t := by simpa using hlast
      have ht3 : sf.pred ch = Option.none := by
        rw [ht2]
        exact hpt
      rw [hpred] at ht3
      cases ht3
    obtain ⟨b, hbt⟩ := chain_pred_last sf.pred C1 ch t hchain hlast hC1ne
    have htvis : sf.visited t = true := inv.pred_vis b t hbt
    obtain ⟨nt, hnt, _⟩ := inv.visited_min t htvis
    have htstart : t = start := by
      by_contra hts
      obtain ⟨u1, hu1⟩ := inv.dist_pred t hts _ hnt
      rw [hpt] at hu1
      cases hu1
    refine ⟨f₀, (ch :: C1).reverse, ?_, ?_, ?_, ?_⟩
    · rw [List.head?_reverse, hlast, htstart]
    · rw [List.getLast?_reverse]
      rfl
    · rw [List.chain'_reverse]
      refine List.Chain'.imp ?_ hchain
      intro a b2 hab
      exact inv.pred_edge a b2 hab
    · intro fuel hf
      show reconstruct_shortest_path sf.pred fuel ch = some ((ch :: C1).reverse)
      simp only [reconstruct_shortest_path]
      rw [hwalk fuel hf []]
      rw [List.nil_append]
      have hrev : ¬ ((ch :: C1).reverse = [ch]) := by
        intro hcon
        have hlen := congrArg List.length hcon
        rw [List.length_reverse, List.length_cons, List.length_singleton] at hlen
        have hc0 : C1.length = 0 := by omega
        exact absurd (List.length_eq_zero.mp hc0) hC1ne
      rw [if_neg hrev]

/-! ### Claim C9 counterexample state -/

/-- C9 (counterexample).  In the graph built from `cexGrid`, node 1 is
reachable from node 0, yet `dijkstra` leaves its distance at the
untouched `none` sentinel: the relaxation compares every candidate
distance against `i32::MAX` and an edge of weight `3600000001` can never
pass, so "reachable ⇒ minimal distance is produced" is false as
stated. -/
theorem dijkstra_unreached_sentinel_cex :
    ReachG cexGraph 0 1 ∧ (dijkstra cexGraph 0).1 1 = Option.none := by
  constructor
  · refine ⟨0 + 3600000001, PathW.tail PathW.refl ?_⟩
    show DNode.mk 1 3600000001 ∈ cexGraph.getD 0 []
    decide
  · rfl

/-- C9 witness: the amended theorem applied to the one-node graph with
no edges. -/
theorem dijkstra_reconstruct_amended_witness :
    ((dijkstra [[]] 0).1 0 = some 0 ∧
    (∀ v d, (dijkstra [[]] 0).1 v = some d → ReachG [[]] 0 v) ∧
    (∀ v c, PathW [[]] 0 v c → c < INFn →
      ∃ n : Nat, (dijkstra [[]] 0).1 v = some ((n : Nat) : Int) ∧
        IsMinDist [[]] 0 v n) ∧
    (∀ target, ¬ ReachG [[]] 0 target →
      ∀ fuel, reconstruct_shortest_path (dijkstra [[]] 0).2 fuel target =
        Option.none) ∧
    (∀ target c, target ≠ 0 → PathW [[]] 0 target c → c < INFn →
      ∃ f p, p.head? = some 0 ∧ p.getLast? = some target ∧
        List.Chain' (fun a b => ∃ w, EdgeG [[]] a b w) p ∧
        ∀ fuel, f ≤ fuel →
          reconstruct_shortest_path (dijkstra [[]] 0).2 fuel target =
            some p)) :=
  dijkstra_reconstruct_amended [[]] 0 (by decide)
    (by
      intro u e h
      have hu : (([[]] : List (List DNode))).getD u [] = [] := by
        cases u with
        | zero => rfl
        | succ k => rfl
      rw [hu] at h
      cases h)
    (by
      intro u e h
      have hu : (([[]] : List (List DNode))).getD u [] = [] := by
        cases u with
        | zero => rfl
        | succ k => rfl
      rw [hu] at h
      cases h)

end RoboticsLib
